import Mathlib

/-!
Shallow embedding of the CesiumCloth real-time cloth simulation
(`src/cloth-simulation-worker.ts` and `src/cloth.ts`).

JavaScript double-precision numbers are idealized as exact real arithmetic
(rounding is not modelled).  A second, IEEE-special-value-aware number model
(`JsNum`, further below) refines division and square root at zero so that the
claims about `d == 0` degeneracy and NaN propagation can be settled faithfully
to JavaScript semantics, where `x / 0` is an infinity and `0 / 0` is NaN.

Mutable `Float64Array`/`Float32Array` buffers are modelled as functions
`ℕ → ℝ`; a particle with grid coordinates `(x, y)` owns the three slots
`idx, idx+1, idx+2` where `idx = y*(width*3) + x*3`, exactly as in the source.
Loops are modelled as folds over the corresponding index lists, in source
iteration order.
-/

open scoped Classical

noncomputable section

/-- Model of Cesium's `Cartesian3`: a cartesian 3-vector of reals. -/
structure Vec3 where
  x : ℝ
  y : ℝ
  z : ℝ

namespace Vec3

/-- `Cartesian3.ZERO`. -/
def zero : Vec3 := ⟨0, 0, 0⟩

/-- `Cartesian3.add`. -/
def add (a b : Vec3) : Vec3 := ⟨a.x + b.x, a.y + b.y, a.z + b.z⟩

/-- `Cartesian3.subtract a b` is the componentwise difference `a - b`. -/
def sub (a b : Vec3) : Vec3 := ⟨a.x - b.x, a.y - b.y, a.z - b.z⟩

/-- `Cartesian3.multiplyByScalar`. -/
def smul (k : ℝ) (a : Vec3) : Vec3 := ⟨k * a.x, k * a.y, k * a.z⟩

/-- `Cartesian3.dot`. -/
def dot (a b : Vec3) : ℝ := a.x * b.x + a.y * b.y + a.z * b.z

/-- `Cartesian3.magnitude`. -/
def magnitude (a : Vec3) : ℝ := Real.sqrt (a.x * a.x + a.y * a.y + a.z * a.z)

/-- `Cartesian3.distance a b = magnitude (subtract a b)`. -/
def distance (a b : Vec3) : ℝ := magnitude (sub a b)

/-- `Cartesian3.lerp start finish t = start*(1-t) + finish*t`. -/
def lerp (start finish : Vec3) (t : ℝ) : Vec3 := add (smul (1 - t) start) (smul t finish)

/-- `Cartesian3.normalize`: componentwise division by the magnitude. -/
def normalize (a : Vec3) : Vec3 := ⟨a.x / magnitude a, a.y / magnitude a, a.z / magnitude a⟩

theorem ext_iff {a b : Vec3} : a = b ↔ a.x = b.x ∧ a.y = b.y ∧ a.z = b.z := by
  constructor
  · rintro rfl; exact ⟨rfl, rfl, rfl⟩
  · rcases a with ⟨ax, ay, az⟩
    rcases b with ⟨bx, by', bz⟩
    rintro ⟨h1, h2, h3⟩
    simp_all

end Vec3

/-- A fixed-distance link between two particles (the `Constraint` type of the
source); `idx1`/`idx2` are flat buffer indices and `distance` is the rest
distance computed at creation time by `addConstraint`. -/
structure Constraint where
  idx1 : ℕ
  idx2 : ℕ
  distance : ℝ

/-- The subset of `ClothConfiguration` (src/cloth-configuration.ts) that the
simulation core reads: the four corners, per-axis particle spacing, gravity
and wind. -/
structure ClothConfiguration where
  p1 : Vec3
  p2 : Vec3
  p3 : Vec3
  p4 : Vec3
  widthAxisParticleDistance : ℝ
  heightAxisParticleDistance : ℝ
  gravity : Vec3
  wind : Vec3

/-- A collision sphere (`CollisionSphere` of src/cloth-handshaking.ts):
center, destination, radius, per-step fractional `speed`, and the progress
accumulator `dt` (which the source lazily initializes to `0` when undefined;
here it is always present). -/
structure CollisionSphere where
  sphereCenter : Vec3
  sphereDestination : Vec3
  sphereRadius : ℝ
  speed : ℝ
  dt : ℝ

/-- Writes one triple of consecutive buffer slots, the model of
`buf[idx] = a; buf[idx+1] = b; buf[idx+2] = c`. -/
def writeVec {α : Type*} (buf : ℕ → α) (idx : ℕ) (a b c : α) : ℕ → α :=
  Function.update (Function.update (Function.update buf idx a) (idx + 1) b) (idx + 2) c

theorem writeVec_apply {α : Type*} (buf : ℕ → α) (idx : ℕ) (a b c : α) (j : ℕ) :
    writeVec buf idx a b c j =
      if j = idx + 2 then c else if j = idx + 1 then b else if j = idx then a else buf j := by
  unfold writeVec Function.update
  simp only [eq_rec_constant, dite_eq_ite]

theorem writeVec_apply_of_disjoint {α : Type*} (buf : ℕ → α) (idx : ℕ) (a b c : α) (j : ℕ)
    (h1 : j ≠ idx) (h2 : j ≠ idx + 1) (h3 : j ≠ idx + 2) :
    writeVec buf idx a b c j = buf j := by
  rw [writeVec_apply, if_neg h3, if_neg h2, if_neg h1]

/-- Flat buffer index of grid coordinates, `getIndex` of the source:
`y * (nbParticlesWidth * 3) + x * 3`. -/
def gridIndex (w x y : ℕ) : ℕ := y * (w * 3) + x * 3

/-- The simulation-owned state of `ClothSimulation` (the worker): the particle
buffers, the fixed flags, the constraint and collision-sphere lists, the
simulation constants and the wind-noise counter. -/
structure ClothSimulation where
  config : ClothConfiguration
  nbParticlesWidth : ℕ
  nbParticlesHeight : ℕ
  particlePositions : ℕ → ℝ
  lastParticlePositions : ℕ → ℝ
  particleAccelerations : ℕ → ℝ
  particleNormals : ℕ → ℝ
  particlePositionsHigh : ℕ → ℝ
  particlePositionsLow : ℕ → ℝ
  isPositionFixed : ℕ → Bool
  particleConstraints : List Constraint
  collisionSpheres : List CollisionSphere
  damping : ℝ
  timeStepPerFrame : ℝ
  nbSimulationIterations : ℕ
  particleMass : ℝ
  windNoiseStep : ℕ

namespace ClothSimulation

/-- `getIndex` of the worker. -/
def getIndex (s : ClothSimulation) (x y : ℕ) : ℕ := gridIndex s.nbParticlesWidth x y

/-- `vertexBufferCount` as computed by `initBuffers`:
`nbParticlesWidth * 3 * nbParticlesHeight`. -/
def vertexBufferCount (s : ClothSimulation) : ℕ :=
  s.nbParticlesWidth * 3 * s.nbParticlesHeight

/-- The flat indices `0, 3, 6, ...` below `vertexBufferCount`, the iteration
space of the source loops of the shape `for (idx = 0; idx < count; idx += 3)`. -/
def particleSlotBases (s : ClothSimulation) : List ℕ :=
  (List.range (s.nbParticlesWidth * s.nbParticlesHeight)).map (3 * ·)

/-- Verlet integration of one particle, `particleTimeStep` of the source:
fixed particles return immediately; otherwise
`next = current + (current - previous)*(1 - damping) + acceleration*timeStepPerFrame`,
previous becomes current, and the acceleration is reset to zero. -/
def particleTimeStep (s : ClothSimulation) (idx : ℕ) : ClothSimulation :=
  if s.isPositionFixed idx then s else
  let ox := s.lastParticlePositions idx
  let oy := s.lastParticlePositions (idx + 1)
  let oz := s.lastParticlePositions (idx + 2)
  let x := s.particlePositions idx
  let y := s.particlePositions (idx + 1)
  let z := s.particlePositions (idx + 2)
  let ax := s.particleAccelerations idx
  let ay := s.particleAccelerations (idx + 1)
  let az := s.particleAccelerations (idx + 2)
  let nx := x + (x - ox) * (1 - s.damping) + ax * s.timeStepPerFrame
  let ny := y + (y - oy) * (1 - s.damping) + ay * s.timeStepPerFrame
  let nz := z + (z - oz) * (1 - s.damping) + az * s.timeStepPerFrame
  { s with
    particlePositions := writeVec s.particlePositions idx nx ny nz
    lastParticlePositions := writeVec s.lastParticlePositions idx x y z
    particleAccelerations := writeVec s.particleAccelerations idx 0 0 0 }

/-- One relaxation visit of one constraint, `satisfyConstraint` of the source:
`deltaDist = 1 - restDistance/dist`, half the correction is added to the first
endpoint and subtracted from the second, each skipped when fixed.  The source
has no guard for `dist == 0`. -/
def satisfyConstraint (s : ClothSimulation) (c : Constraint) : ClothSimulation :=
  let x1 := s.particlePositions c.idx1
  let y1 := s.particlePositions (c.idx1 + 1)
  let z1 := s.particlePositions (c.idx1 + 2)
  let x2 := s.particlePositions c.idx2
  let y2 := s.particlePositions (c.idx2 + 1)
  let z2 := s.particlePositions (c.idx2 + 2)
  let dx := x2 - x1
  let dy := y2 - y1
  let dz := z2 - z1
  let dist := Real.sqrt (dx * dx + dy * dy + dz * dz)
  let deltaDist := 1 - c.distance / dist
  let cvx := dx * deltaDist * 0.5
  let cvy := dy * deltaDist * 0.5
  let cvz := dz * deltaDist * 0.5
  let s1 :=
    if s.isPositionFixed c.idx1 then s else
    { s with particlePositions := writeVec s.particlePositions c.idx1 (x1 + cvx) (y1 + cvy) (z1 + cvz) }
  if s1.isPositionFixed c.idx2 then s1 else
  { s1 with particlePositions :=
      (writeVec s1.particlePositions c.idx2
        (s1.particlePositions c.idx2 - cvx)
        (s1.particlePositions (c.idx2 + 1) - cvy)
        (s1.particlePositions (c.idx2 + 2) - cvz)) }

/-- Grid coordinates `(x, y)` in the iteration order of `simulationStep`'s
physics loop (`y` outer, `x` inner). -/
def particleCoordsYOuter (w h : ℕ) : List (ℕ × ℕ) :=
  (List.range h).flatMap fun y => (List.range w).map fun x => (x, y)

/-- Grid coordinates `(x, y)` in the iteration order of
`computeSphereCollision`'s particle loop (`x` outer, `y` inner). -/
def particleCoordsXOuter (w h : ℕ) : List (ℕ × ℕ) :=
  (List.range w).flatMap fun x => (List.range h).map fun y => (x, y)

/-- `simulationStep` of the source: `nbSimulationIterations` passes over the
constraint list in creation order, then Verlet integration of every particle. -/
def simulationStep (s : ClothSimulation) : ClothSimulation :=
  let s1 := (fun t : ClothSimulation => t.particleConstraints.foldl satisfyConstraint t)^[s.nbSimulationIterations] s
  (particleCoordsYOuter s1.nbParticlesWidth s1.nbParticlesHeight).foldl
    (fun t p => t.particleTimeStep (t.getIndex p.1 p.2)) s1

/-- `addForce` of the source: accumulates `f / particleMass` into the three
acceleration slots of particle `idx`, with no fixed-flag check. -/
def addForce (s : ClothSimulation) (idx : ℕ) (f : Vec3) : ClothSimulation :=
  { s with particleAccelerations :=
      (writeVec s.particleAccelerations idx
        (s.particleAccelerations idx + f.x / s.particleMass)
        (s.particleAccelerations (idx + 1) + f.y / s.particleMass)
        (s.particleAccelerations (idx + 2) + f.z / s.particleMass)) }

/-- `addForceToAllParticles` of the source: adds `f / particleMass` to the
acceleration of every particle whose base slot is not fixed. -/
def addForceToAllParticles (s : ClothSimulation) (f : Vec3) : ClothSimulation :=
  let fx := f.x / s.particleMass
  let fy := f.y / s.particleMass
  let fz := f.z / s.particleMass
  s.particleSlotBases.foldl
    (fun t idx =>
      if t.isPositionFixed idx then t else
      { t with particleAccelerations :=
          (writeVec t.particleAccelerations idx
            (t.particleAccelerations idx + fx)
            (t.particleAccelerations (idx + 1) + fy)
            (t.particleAccelerations (idx + 2) + fz)) }) s

/-- `addGravity` of the source.  Cesium's
`Transforms.northEastDownToFixedFrame(p1)` composed with
`Matrix4.multiplyByPoint` is external library code (not part of this
repository); it is abstracted as the parameter `ned`, the map that transforms
the configured gravity vector into the local frame anchored at `p1`. -/
def addGravity (ned : Vec3 → Vec3) (s : ClothSimulation) : ClothSimulation :=
  if s.config.gravity = Vec3.zero then s
  else s.addForceToAllParticles (Vec3.smul (-s.timeStepPerFrame) (Vec3.normalize (ned s.config.gravity)))

/-- `calcTriangleNormal` of the source: the normalized cross product of the
two edge vectors out of the triangle's first vertex (no zero guard). -/
def calcTriangleNormal (s : ClothSimulation) (idx1 idx2 idx3 : ℕ) : Vec3 :=
  let x1 := s.particlePositions idx1
  let y1 := s.particlePositions (idx1 + 1)
  let z1 := s.particlePositions (idx1 + 2)
  let x2 := s.particlePositions idx2
  let y2 := s.particlePositions (idx2 + 1)
  let z2 := s.particlePositions (idx2 + 2)
  let x3 := s.particlePositions idx3
  let y3 := s.particlePositions (idx3 + 1)
  let z3 := s.particlePositions (idx3 + 2)
  let v1x := x2 - x1
  let v1y := y2 - y1
  let v1z := z2 - z1
  let v2x := x3 - x1
  let v2y := y3 - y1
  let v2z := z3 - z1
  let x := v1y * v2z - v1z * v2y
  let y := v1z * v2x - v1x * v2z
  let z := v1x * v2y - v1y * v2x
  let norm := Real.sqrt (x * x + y * y + z * z)
  ⟨x / norm, y / norm, z / norm⟩

/-- `addWindForcesForTriangle` of the source: applies `normal * dot(normal,
direction)` to all three vertices of the triangle (fixed or not). -/
def addWindForcesForTriangle (s : ClothSimulation) (idx1 idx2 idx3 : ℕ) (direction : Vec3) :
    ClothSimulation :=
  let normal := s.calcTriangleNormal idx1 idx2 idx3
  let force := Vec3.smul (Vec3.dot normal direction) normal
  ((s.addForce idx1 force).addForce idx2 force).addForce idx3 force

end ClothSimulation

/-- `addWindNoise` of the source, as a function of the counter and the
configured wind.  The source post-increments `windNoiseStep`, tests the old
value against `% 1000`, and resets the counter to `0` inside the branch that
fires; the second component is the counter after the call. -/
def addWindNoise (windNoiseStep : ℕ) (wind : Vec3) : Option Vec3 × ℕ :=
  let old := windNoiseStep
  let incremented := windNoiseStep + 1
  if old % 1000 = 0 then
    (some ⟨wind.x + 0.001, wind.y + 0.001, wind.z⟩, 0)
  else
    (none, incremented)

namespace ClothSimulation

/-- The cell coordinates `(x, y)` in the iteration order of `windForce`
(`x` outer over `width - 1`, `y` inner over `height - 1`). -/
def windCellCoords (w h : ℕ) : List (ℕ × ℕ) :=
  (List.range (w - 1)).flatMap fun x => (List.range (h - 1)).map fun y => (x, y)

/-- `windForce` of the source: early return when the wind is zero; otherwise
the wind used for this step is the noised wind when `addWindNoise` fired and
the configured wind otherwise, and both triangles of every cell receive the
aerodynamic force. -/
def windForce (s : ClothSimulation) : ClothSimulation :=
  if s.config.wind = Vec3.zero then s
  else
    let noised := addWindNoise s.windNoiseStep s.config.wind
    let wind := noised.1.getD s.config.wind
    let s0 : ClothSimulation := { s with windNoiseStep := noised.2 }
    (windCellCoords s0.nbParticlesWidth s0.nbParticlesHeight).foldl
      (fun t p =>
        let t1 := t.addWindForcesForTriangle
          (t.getIndex p.1 p.2) (t.getIndex (p.1 + 1) p.2) (t.getIndex p.1 (p.2 + 1)) wind
        t1.addWindForcesForTriangle
          (t1.getIndex (p.1 + 1) p.2) (t1.getIndex p.1 (p.2 + 1)) (t1.getIndex (p.1 + 1) (p.2 + 1)) wind)
      s0

/-- The body of `computeSphereCollision`'s particle loop: an unfixed particle
at distance `l < sphereRadius` from the sphere center is pushed to the sphere
surface along the normalized radial direction. -/
def collideParticle (sphere : CollisionSphere) (s : ClothSimulation) (idx : ℕ) : ClothSimulation :=
  if s.isPositionFixed idx then s else
  let x1 := s.particlePositions idx
  let y1 := s.particlePositions (idx + 1)
  let z1 := s.particlePositions (idx + 2)
  let vx := x1 - sphere.sphereCenter.x
  let vy := y1 - sphere.sphereCenter.y
  let vz := z1 - sphere.sphereCenter.z
  let l := Real.sqrt (vx * vx + vy * vy + vz * vz)
  if l < sphere.sphereRadius then
    let ray := sphere.sphereRadius - l
    { s with particlePositions :=
        (writeVec s.particlePositions idx
          (x1 + vx / l * ray) (y1 + vy / l * ray) (z1 + vz / l * ray)) }
  else s

/-- `computeSphereCollision` of the source: the sphere center is first moved
by `lerp(center, destination, dt)`, then `dt` is incremented by `speed`, and
then every particle is tested against the moved sphere.  Returns the mutated
sphere together with the new state. -/
def computeSphereCollision (s : ClothSimulation) (sphere : CollisionSphere) :
    CollisionSphere × ClothSimulation :=
  let movedSphere : CollisionSphere :=
    { sphere with
      sphereCenter := Vec3.lerp sphere.sphereCenter sphere.sphereDestination sphere.dt
      dt := sphere.dt + sphere.speed }
  let s1 := (particleCoordsXOuter s.nbParticlesWidth s.nbParticlesHeight).foldl
    (fun t p => collideParticle movedSphere t (t.getIndex p.1 p.2)) s
  (movedSphere, s1)

/-- The collision phase of `updateSimulation`: each sphere of the list is
applied in order, and the list keeps the mutated spheres. -/
def runCollisions (s : ClothSimulation) : ClothSimulation :=
  let folded := s.collisionSpheres.foldl
    (fun (acc : List CollisionSphere × ClothSimulation) sphere =>
      let r := acc.2.computeSphereCollision sphere
      (acc.1 ++ [r.1], r.2))
    ([], s)
  { folded.2 with collisionSpheres := folded.1 }

/-- `updateSimulation` of the source: gravity, wind, constraint relaxation and
integration, then sphere collisions. -/
def updateSimulation (ned : Vec3 → Vec3) (s : ClothSimulation) : ClothSimulation :=
  runCollisions (simulationStep (windForce (addGravity ned s)))

/-- `resetNormals` of the source: zeroes every particle's normal slots. -/
def resetNormals (s : ClothSimulation) : ClothSimulation :=
  s.particleSlotBases.foldl
    (fun t idx => { t with particleNormals := writeVec t.particleNormals idx 0 0 0 }) s

/-- `addToNormal` of the source: accumulates a triangle normal into the three
normal slots of particle `idx`. -/
def addToNormal (s : ClothSimulation) (idx : ℕ) (normal : Vec3) : ClothSimulation :=
  { s with particleNormals :=
      (writeVec s.particleNormals idx
        (s.particleNormals idx + normal.x)
        (s.particleNormals (idx + 1) + normal.y)
        (s.particleNormals (idx + 2) + normal.z)) }

/-- `normalizeNormals` of the source: every particle's accumulated normal is
divided by its own length.  The source has no guard for a zero-length
accumulation. -/
def normalizeNormals (s : ClothSimulation) : ClothSimulation :=
  s.particleSlotBases.foldl
    (fun t idx =>
      let x := t.particleNormals idx
      let y := t.particleNormals (idx + 1)
      let z := t.particleNormals (idx + 2)
      let norm := Real.sqrt (x * x + y * y + z * z)
      { t with particleNormals := writeVec t.particleNormals idx (x / norm) (y / norm) (z / norm) }) s

/-- The cell coordinates `(x, y)` in the iteration order of `computeNormals`
(`y` outer over `height - 1`, `x` inner over `width - 1`). -/
def normalCellCoords (w h : ℕ) : List (ℕ × ℕ) :=
  (List.range (h - 1)).flatMap fun y => (List.range (w - 1)).map fun x => (x, y)

/-- `computeNormals` of the source: accumulates both triangle normals of every
cell into the three vertices of each triangle, then normalizes all normals. -/
def computeNormals (s : ClothSimulation) : ClothSimulation :=
  let accumulated := (normalCellCoords s.nbParticlesWidth s.nbParticlesHeight).foldl
    (fun t p =>
      let n1 := t.calcTriangleNormal (t.getIndex p.1 p.2) (t.getIndex (p.1 + 1) p.2)
        (t.getIndex p.1 (p.2 + 1))
      let t1 := ((t.addToNormal (t.getIndex p.1 p.2) n1).addToNormal
        (t.getIndex (p.1 + 1) p.2) n1).addToNormal (t.getIndex p.1 (p.2 + 1)) n1
      let n2 := t1.calcTriangleNormal (t1.getIndex (p.1 + 1) p.2)
        (t1.getIndex (p.1 + 1) (p.2 + 1)) (t1.getIndex p.1 (p.2 + 1))
      ((t1.addToNormal (t1.getIndex (p.1 + 1) p.2) n2).addToNormal
        (t1.getIndex (p.1 + 1) (p.2 + 1)) n2).addToNormal (t1.getIndex p.1 (p.2 + 1)) n2)
    s
  normalizeNormals accumulated

end ClothSimulation

/-- The per-coordinate body of `encodePositions`, identical to CesiumJS
`EncodedCartesian3`: a non-negative value is split at a multiple of `65536`
below it; a negative value is split with mirrored sign handling.  Returns the
`(high, low)` pair. -/
def encodeValue (value : ℝ) : ℝ × ℝ :=
  if 0 ≤ value then
    let doubleHigh := (⌊value / 65536⌋ : ℝ) * 65536
    (doubleHigh, value - doubleHigh)
  else
    let doubleHigh := (⌊-value / 65536⌋ : ℝ) * 65536
    (-doubleHigh, value + doubleHigh)

namespace ClothSimulation

/-- `encodePositions` of the source: every slot of the position buffer is
split into the high/low pair buffers. -/
def encodePositions (s : ClothSimulation) : ClothSimulation :=
  (List.range s.vertexBufferCount).foldl
    (fun t i =>
      let hl := encodeValue (t.particlePositions i)
      { t with
        particlePositionsHigh := Function.update t.particlePositionsHigh i hl.1
        particlePositionsLow := Function.update t.particlePositionsLow i hl.2 }) s

/-- The state-mutating part of `refreshCloth`: smooth shading (reset and
recompute the normals) followed by position encoding; the message posting has
no effect on the simulation state. -/
def refreshCloth (s : ClothSimulation) : ClothSimulation :=
  encodePositions (computeNormals (resetNormals s))

/-- `setFixed` of the source: sets the fixed flag at the given flat index and
optionally overwrites the particle position. -/
def setFixed (s : ClothSimulation) (idx : ℕ) (fixedFlag : Bool) (newPosition : Option Vec3) :
    ClothSimulation :=
  let s1 : ClothSimulation := { s with isPositionFixed := Function.update s.isPositionFixed idx fixedFlag }
  match newPosition with
  | none => s1
  | some p => { s1 with particlePositions := writeVec s1.particlePositions idx p.x p.y p.z }

end ClothSimulation

/-- One entry of the `fixedParticles` field of `ClothForceAndCollisionMsg`:
grid coordinates, the new fixed flag, and an optional new position. -/
structure FixedParticleMsg where
  particleX : ℕ
  particleY : ℕ
  isFixed : Bool
  newPosition : Option Vec3

/-- `ClothForceAndCollisionMsg` of src/cloth-handshaking.ts: each field is
optional and only present fields are merged into the live state. -/
structure ClothForceAndCollisionMsg where
  gravity : Option Vec3
  wind : Option Vec3
  collisionSpheres : Option (List CollisionSphere)
  fixedParticles : Option (List FixedParticleMsg)

namespace ClothSimulation

/-- `updateClothForceAndCollision` of the worker: merges the present fields of
the message, and applies each fixed-particle entry via
`setFixed(getIndex(particleX, particleY), ...)` with no range check on the
grid coordinates. -/
def updateClothForceAndCollision (s : ClothSimulation) (m : ClothForceAndCollisionMsg) :
    ClothSimulation :=
  let s1 : ClothSimulation :=
    match m.gravity with
    | some g => { s with config := { s.config with gravity := g } }
    | none => s
  let s2 : ClothSimulation :=
    match m.wind with
    | some w => { s1 with config := { s1.config with wind := w } }
    | none => s1
  let s3 : ClothSimulation :=
    match m.collisionSpheres with
    | some cs => { s2 with collisionSpheres := cs }
    | none => s2
  match m.fixedParticles with
  | some ps =>
    ps.foldl (fun t p => t.setFixed (t.getIndex p.particleX p.particleY) p.isFixed p.newPosition) s3
  | none => s3

end ClothSimulation

/-- The grid-dimension computation of `build`: axis lengths are the Euclidean
distances `(p1,p2)` and `(p1,p4)`; each particle count is
`Math.floor(axisLength / spacing)` and is then incremented by one.
(`Int.toNat` is the identity here whenever the spacing is positive, since the
axis length is non-negative.) -/
def buildGridCounts (c : ClothConfiguration) : ℕ × ℕ :=
  let lengthOnWidthAxis := Vec3.distance c.p1 c.p2
  let nbParticlesWidth := (⌊lengthOnWidthAxis / c.widthAxisParticleDistance⌋).toNat
  let lengthOnHeightAxis := Vec3.distance c.p1 c.p4
  let nbParticlesHeight := (⌊lengthOnHeightAxis / c.heightAxisParticleDistance⌋).toNat
  (nbParticlesWidth + 1, nbParticlesHeight + 1)

/-- `addConstraint` of the source: records the two flat indices together with
the Euclidean distance of the two endpoint positions at creation time. -/
def addConstraint (pos : ℕ → ℝ) (idx1 idx2 : ℕ) : Constraint :=
  let dx := pos idx2 - pos idx1
  let dy := pos (idx2 + 1) - pos (idx1 + 1)
  let dz := pos (idx2 + 2) - pos (idx1 + 2)
  { idx1 := idx1, idx2 := idx2, distance := Real.sqrt (dx * dx + dy * dy + dz * dz) }

/-- The constraints created for one grid cell by the first constraint loop of
`build`: right neighbor, down neighbor, and the two diagonals, in source
order. -/
def cellStructuralConstraints (pos : ℕ → ℝ) (w h x y : ℕ) : List Constraint :=
  (if x < w - 1 then [addConstraint pos (gridIndex w x y) (gridIndex w (x + 1) y)] else []) ++
  (if y < h - 1 then [addConstraint pos (gridIndex w x y) (gridIndex w x (y + 1))] else []) ++
  (if x < w - 1 ∧ y < h - 1 then
    [addConstraint pos (gridIndex w x y) (gridIndex w (x + 1) (y + 1))] else []) ++
  (if x < w - 1 ∧ y < h - 1 then
    [addConstraint pos (gridIndex w (x + 1) y) (gridIndex w x (y + 1))] else [])

/-- The first constraint loop of `build` (immediate neighbors), `y` outer,
`x` inner. -/
def structuralConstraints (pos : ℕ → ℝ) (w h : ℕ) : List Constraint :=
  (List.range h).flatMap fun y => (List.range w).flatMap fun x =>
    cellStructuralConstraints pos w h x y

/-- The constraints created for one grid cell by the second constraint loop of
`build`: the same four links at stride 2. -/
def cellSecondaryConstraints (pos : ℕ → ℝ) (w h x y : ℕ) : List Constraint :=
  (if x < w - 2 then [addConstraint pos (gridIndex w x y) (gridIndex w (x + 2) y)] else []) ++
  (if y < h - 2 then [addConstraint pos (gridIndex w x y) (gridIndex w x (y + 2))] else []) ++
  (if x < w - 2 ∧ y < h - 2 then
    [addConstraint pos (gridIndex w x y) (gridIndex w (x + 2) (y + 2))] else []) ++
  (if x < w - 2 ∧ y < h - 2 then
    [addConstraint pos (gridIndex w (x + 2) y) (gridIndex w x (y + 2))] else [])

/-- The second constraint loop of `build` (secondary neighbors), executed only
when `connectingSecondaryNeighbors` is set. -/
def secondaryConstraints (pos : ℕ → ℝ) (w h : ℕ) : List Constraint :=
  (List.range h).flatMap fun y => (List.range w).flatMap fun x =>
    cellSecondaryConstraints pos w h x y

/-- The full constraint list created by `build` for an initial position buffer
`pos` and grid dimensions `w × h`. -/
def buildConstraints (pos : ℕ → ℝ) (w h : ℕ) (secondaryNeighbors : Bool) : List Constraint :=
  structuralConstraints pos w h ++
    (if secondaryNeighbors then secondaryConstraints pos w h else [])

/-- `projectPoint` of src/cloth.ts: orthogonal projection of `p` onto the line
through `q1` and `q2`. -/
def projectPoint (q1 q2 p : Vec3) : Vec3 :=
  let ab := Vec3.sub q2 q1
  let ap := Vec3.sub p q1
  let d := Vec3.dot ap ab / Vec3.dot ab ab
  Vec3.add q1 (Vec3.smul d ab)

/-- Flat buffer index over the integers, used by `getIndexFromPosition` whose
recovered grid coordinates can be `-1`. -/
def gridIndexZ (w : ℕ) (x y : ℤ) : ℤ := y * ((w : ℤ) * 3) + x * 3

/-- `getIndexFromPosition` of src/cloth.ts: the query point is projected onto
the two edge axes out of `p1`, each projection length is turned into a grid
coordinate by `Math.ceil(length / spacing) - 1`, and `-1` is returned only
when `X > nbParticlesWidth` or `Y > nbParticlesHeight`; otherwise the flat
index `getIndex(X, Y)` is returned. -/
def getIndexFromPosition (c : ClothConfiguration) (w h : ℕ) (p : Vec3) : ℤ :=
  let xAxis := Vec3.sub c.p2 c.p1
  let yAxis := Vec3.sub c.p4 c.p1
  let pAxis := Vec3.sub p c.p1
  let pOnS12 := projectPoint Vec3.zero xAxis pAxis
  let pOnS14 := projectPoint Vec3.zero yAxis pAxis
  let X := ⌈Vec3.magnitude pOnS12 / c.widthAxisParticleDistance⌉ - 1
  let Y := ⌈Vec3.magnitude pOnS14 / c.heightAxisParticleDistance⌉ - 1
  if X > (w : ℤ) then -1
  else if Y > (h : ℤ) then -1
  else gridIndexZ w X Y

/-- A JavaScript IEEE-754 double with its special values: a finite value
(idealized as an exact real), the two infinities, and NaN.  The sign of zero
is not modelled; in every code path verified below the divisor is
`Math.sqrt` of a non-negative sum, which is positive zero in JavaScript, so
division of a positive finite value by zero is `+Infinity` and `0 / 0` is
NaN, exactly as modelled. -/
inductive JsNum where
  | fin : ℝ → JsNum
  | posInf : JsNum
  | negInf : JsNum
  | nan : JsNum

namespace JsNum

/-- IEEE addition. -/
def add : JsNum → JsNum → JsNum
  | fin a, fin b => fin (a + b)
  | fin _, posInf => posInf
  | fin _, negInf => negInf
  | posInf, fin _ => posInf
  | negInf, fin _ => negInf
  | posInf, posInf => posInf
  | negInf, negInf => negInf
  | _, _ => nan

/-- IEEE negation. -/
def neg : JsNum → JsNum
  | fin a => fin (-a)
  | posInf => negInf
  | negInf => posInf
  | nan => nan

/-- IEEE subtraction. -/
def sub (a b : JsNum) : JsNum := add a (neg b)

/-- IEEE multiplication: `0 * Infinity` is NaN. -/
def mul : JsNum → JsNum → JsNum
  | fin a, fin b => fin (a * b)
  | fin a, posInf => if a = 0 then nan else if 0 < a then posInf else negInf
  | fin a, negInf => if a = 0 then nan else if 0 < a then negInf else posInf
  | posInf, fin b => if b = 0 then nan else if 0 < b then posInf else negInf
  | negInf, fin b => if b = 0 then nan else if 0 < b then negInf else posInf
  | posInf, posInf => posInf
  | posInf, negInf => negInf
  | negInf, posInf => negInf
  | negInf, negInf => posInf
  | _, _ => nan

/-- IEEE division (positive zero divisor): `x / 0` is a signed infinity for
`x ≠ 0`, and `0 / 0` is NaN. -/
def div : JsNum → JsNum → JsNum
  | fin a, fin b =>
      if b = 0 then (if a = 0 then nan else if 0 < a then posInf else negInf)
      else fin (a / b)
  | fin _, posInf => fin 0
  | fin _, negInf => fin 0
  | posInf, fin b => if 0 ≤ b then posInf else negInf
  | negInf, fin b => if 0 ≤ b then negInf else posInf
  | _, _ => nan

/-- IEEE square root: NaN on negative finite inputs. -/
def sqrt : JsNum → JsNum
  | fin a => if a < 0 then nan else fin (Real.sqrt a)
  | posInf => posInf
  | _ => nan

end JsNum

/-- A constraint over the JavaScript number model. -/
structure JsConstraint where
  idx1 : ℕ
  idx2 : ℕ
  distance : JsNum

/-- `satisfyConstraint` of the source over the JavaScript number model
(`JsNum`), operating on the position buffer; the statement order and the
fixed-flag guards are identical to the real-valued model above, but division,
multiplication and square root keep their IEEE special-value behavior. -/
def satisfyConstraintJs (fixedAt : ℕ → Bool) (c : JsConstraint) (pos : ℕ → JsNum) : ℕ → JsNum :=
  let x1 := pos c.idx1
  let y1 := pos (c.idx1 + 1)
  let z1 := pos (c.idx1 + 2)
  let x2 := pos c.idx2
  let y2 := pos (c.idx2 + 1)
  let z2 := pos (c.idx2 + 2)
  let dx := x2.sub x1
  let dy := y2.sub y1
  let dz := z2.sub z1
  let dist := (((dx.mul dx).add (dy.mul dy)).add (dz.mul dz)).sqrt
  let deltaDist := (JsNum.fin 1).sub (c.distance.div dist)
  let cvx := (dx.mul deltaDist).mul (JsNum.fin 0.5)
  let cvy := (dy.mul deltaDist).mul (JsNum.fin 0.5)
  let cvz := (dz.mul deltaDist).mul (JsNum.fin 0.5)
  let pos1 :=
    if fixedAt c.idx1 then pos
    else writeVec pos c.idx1 (x1.add cvx) (y1.add cvy) (z1.add cvz)
  if fixedAt c.idx2 then pos1
  else
    writeVec pos1 c.idx2 ((pos1 c.idx2).sub cvx) ((pos1 (c.idx2 + 1)).sub cvy)
      ((pos1 (c.idx2 + 2)).sub cvz)

/-- The per-particle body of `normalizeNormals` over the JavaScript number
model: each of the three slots is divided by the accumulated length, with no
zero guard. -/
def normalizeNormalBodyJs (normals : ℕ → JsNum) (idx : ℕ) : ℕ → JsNum :=
  let x := normals idx
  let y := normals (idx + 1)
  let z := normals (idx + 2)
  let norm := (((x.mul x).add (y.mul y)).add (z.mul z)).sqrt
  writeVec normals idx (x.div norm) (y.div norm) (z.div norm)

/-- `normalizeNormals` of the source over the JavaScript number model. -/
def normalizeNormalsJs (w h : ℕ) (normals : ℕ → JsNum) : ℕ → JsNum :=
  ((List.range (w * h)).map (3 * ·)).foldl normalizeNormalBodyJs normals

/-- An input consumed by the simulation worker: an asynchronous
force/collision command, or one firing of the periodic simulation loop
(which runs `updateSimulation` then `refreshCloth`). -/
inductive SimEvent where
  | command : ClothForceAndCollisionMsg → SimEvent
  | tick : SimEvent

/-- Applies one worker input to the simulation state. -/
def applyEvent (ned : Vec3 → Vec3) (s : ClothSimulation) : SimEvent → ClothSimulation
  | SimEvent.command m => s.updateClothForceAndCollision m
  | SimEvent.tick => (s.updateSimulation ned).refreshCloth

/-- A whole worker run: the initial state consumes a sequence of inputs. -/
def runSimulation (ned : Vec3 → Vec3) (events : List SimEvent) (s : ClothSimulation) :
    ClothSimulation :=
  events.foldl (applyEvent ned) s

/-- C3: Encoder round-trip.  In the idealized exact model the reconstruction
is exact: `high + low = v` for every value, the non-negative branch has
`high = floor(v/65536)*65536`, the negative branch is its mirror image with
`high ≤ 0` (sign preserved for negative values), and `v = 0` encodes as the
pair `(0, 0)` (sign preserved at zero). -/
theorem encodeValue_high_add_low (v : ℝ) :
    (encodeValue v).1 + (encodeValue v).2 = v ∧
    (0 ≤ v → (encodeValue v).1 = (⌊v / 65536⌋ : ℝ) * 65536) ∧
    (v < 0 → (encodeValue v).1 = -((⌊-v / 65536⌋ : ℝ) * 65536) ∧ (encodeValue v).1 ≤ 0) ∧
    (v = 0 → encodeValue v = (0, 0)) := by
  unfold encodeValue
  by_cases h : 0 ≤ v
  · rw [if_pos h]
    refine ⟨by ring, fun _ => rfl, fun hlt => absurd hlt (not_lt.mpr h), fun hv => ?_⟩
    subst hv
    norm_num
  · rw [if_neg h]
    refine ⟨by ring, fun hge => absurd hge h, fun _ => ⟨rfl, ?_⟩, fun hv => absurd hv.ge h⟩
    have hv : 0 < -v := by linarith [not_le.mp h]
    have hfloor : (0 : ℤ) ≤ ⌊-v / 65536⌋ := Int.floor_nonneg.mpr (by positivity)
    have hc : (0 : ℝ) ≤ ((⌊-v / 65536⌋ : ℤ) : ℝ) := by exact_mod_cast hfloor
    nlinarith

/-- C3 witness: the round-trip theorem evaluated at `v = -70000`, whose
encoding is `high = -65536`, `low = -4464`. -/
theorem encodeValue_high_add_low_witness :
    (encodeValue (-70000)).1 + (encodeValue (-70000)).2 = -70000 ∧
    ((-70000 : ℝ) < 0 →
      (encodeValue (-70000)).1 = -((⌊-(-70000 : ℝ) / 65536⌋ : ℝ) * 65536) ∧
      (encodeValue (-70000)).1 ≤ 0) ∧
    (encodeValue (-70000 : ℝ)).1 = -65536 := by
  have h := encodeValue_high_add_low (-70000)
  refine ⟨h.1, h.2.2.1, ?_⟩
  have h1 : ((-70000 : ℝ) < 0) := by norm_num
  have h2 := (h.2.2.1 h1).1
  rw [h2]
  have : ⌊-(-70000 : ℝ) / 65536⌋ = 1 := by
    rw [Int.floor_eq_iff]
    norm_num
  rw [this]
  norm_num

/-- Folds preserve any projection preserved by the folded function. -/
theorem foldl_proj_eq {α β γ : Type*} (proj : α → β) (f : α → γ → α) (l : List γ) (s : α)
    (h : ∀ t p, proj (f t p) = proj t) : proj (l.foldl f s) = proj s := by
  induction l generalizing s with
  | nil => rfl
  | cons a l ih => rw [List.foldl_cons, ih, h]

/-- The wind-noise counter before the `n`-th `windForce` call of a run that
starts from a freshly constructed worker (`windNoiseStep` initialized to 0). -/
def windNoiseCounterAt (wind : Vec3) : ℕ → ℕ
  | 0 => 0
  | n + 1 => (addWindNoise (windNoiseCounterAt wind n) wind).2

/-- The noised wind (or `none` when no noise fires) used by the `n`-th
`windForce` call of such a run. -/
def windUsedAt (wind : Vec3) (n : ℕ) : Option Vec3 :=
  (addWindNoise (windNoiseCounterAt wind n) wind).1

/-- C2 counterexample: the noise does not have period 1000.  Step 1 is not a
multiple of 1000, yet the noise fires at step 1 (as it does at step 0),
because the counter was reset to 0 inside the branch at step 0. -/
theorem windNoise_fires_at_step_one :
    (windUsedAt ⟨5, 0, 0⟩ 1).isSome = true ∧ (1 : ℕ) % 1000 ≠ 0 ∧
    (windUsedAt ⟨5, 0, 0⟩ 0).isSome = true := by
  refine ⟨?_, by decide, ?_⟩ <;>
    simp [windUsedAt, windNoiseCounterAt, addWindNoise]

/-- C2 amended: because `addWindNoise` resets the counter to 0 inside the
branch that fires (the check reads the post-incremented counter's old value),
the counter of a run is 0 before every step, so the `+0.001` x/y noise is
injected on every `windForce` step with a nonzero wind — the effective period
is one step, not 1000.  The branch condition itself is
`counter % 1000 == 0`, and the injected vector is exactly the configured wind
with `0.001` added to its x and y components. -/
theorem windNoise_every_step (wind : Vec3) (n : ℕ) :
    windNoiseCounterAt wind n = 0 ∧
    windUsedAt wind n = some ⟨wind.x + 0.001, wind.y + 0.001, wind.z⟩ ∧
    (∀ c, addWindNoise c wind =
      if c % 1000 = 0 then (some ⟨wind.x + 0.001, wind.y + 0.001, wind.z⟩, 0)
      else (none, c + 1)) := by
  have hcounter : ∀ m, windNoiseCounterAt wind m = 0 := by
    intro m
    induction m with
    | zero => rfl
    | succ k ih => simp [windNoiseCounterAt, ih, addWindNoise]
  refine ⟨hcounter n, ?_, fun c => ?_⟩
  · simp [windUsedAt, hcounter n, addWindNoise]
  · by_cases h : c % 1000 = 0 <;> simp [addWindNoise, h]

/-- C1: the source does NOT skip degenerate constraints or zero-length
normals — it writes NaN.  Over the JavaScript number model: visiting a
constraint whose two (unfixed) endpoints coincide at the origin with rest
distance 1 computes `deltaDist = 1 - 1/0 = -Infinity` and the correction
`0 * -Infinity * 0.5 = NaN`, which is written into both endpoints' position
slots; and normalizing a particle whose accumulated normal is `(0,0,0)`
computes `0 / sqrt 0 = 0 / 0 = NaN`, which is written into the normal buffer.
This contradicts the specified guard-and-skip behavior. -/
theorem degenerate_constraint_writes_nan :
    satisfyConstraintJs (fun _ => false) ⟨0, 3, JsNum.fin 1⟩ (fun _ => JsNum.fin 0) 0 =
      JsNum.nan ∧
    satisfyConstraintJs (fun _ => false) ⟨0, 3, JsNum.fin 1⟩ (fun _ => JsNum.fin 0) 3 =
      JsNum.nan ∧
    normalizeNormalsJs 1 1 (fun _ => JsNum.fin 0) 0 = JsNum.nan := by
  refine ⟨?_, ?_, ?_⟩
  · simp [satisfyConstraintJs, JsNum.sub, JsNum.add, JsNum.neg, JsNum.mul, JsNum.div,
      JsNum.sqrt, writeVec_apply, Real.sqrt_zero]
  · simp [satisfyConstraintJs, JsNum.sub, JsNum.add, JsNum.neg, JsNum.mul, JsNum.div,
      JsNum.sqrt, writeVec_apply, Real.sqrt_zero]
  · simp [normalizeNormalsJs, normalizeNormalBodyJs, List.range_succ, JsNum.sub, JsNum.add,
      JsNum.neg, JsNum.mul, JsNum.div, JsNum.sqrt, writeVec_apply, Real.sqrt_zero]

/-- C4: the Verlet integrator.  For an unfixed particle, one `particleTimeStep`
sets each position slot to
`current + (current - previous)*(1 - damping) + acceleration*timeStepPerFrame`,
stores the old current position as the new previous position, and resets the
acceleration slots to zero; with zero damping and a particle at rest
(`previous == current`) the position advance is exactly
`acceleration * timeStepPerFrame`; and a fixed particle's position and
previous-position buffers are completely unchanged. -/
theorem particleTimeStep_verlet (s : ClothSimulation) (idx : ℕ) :
    (s.isPositionFixed idx = false →
      ((s.particleTimeStep idx).particlePositions idx =
          s.particlePositions idx +
            (s.particlePositions idx - s.lastParticlePositions idx) * (1 - s.damping) +
            s.particleAccelerations idx * s.timeStepPerFrame ∧
        (s.particleTimeStep idx).particlePositions (idx + 1) =
          s.particlePositions (idx + 1) +
            (s.particlePositions (idx + 1) - s.lastParticlePositions (idx + 1)) * (1 - s.damping) +
            s.particleAccelerations (idx + 1) * s.timeStepPerFrame ∧
        (s.particleTimeStep idx).particlePositions (idx + 2) =
          s.particlePositions (idx + 2) +
            (s.particlePositions (idx + 2) - s.lastParticlePositions (idx + 2)) * (1 - s.damping) +
            s.particleAccelerations (idx + 2) * s.timeStepPerFrame) ∧
      ((s.particleTimeStep idx).lastParticlePositions idx = s.particlePositions idx ∧
        (s.particleTimeStep idx).lastParticlePositions (idx + 1) = s.particlePositions (idx + 1) ∧
        (s.particleTimeStep idx).lastParticlePositions (idx + 2) = s.particlePositions (idx + 2)) ∧
      ((s.particleTimeStep idx).particleAccelerations idx = 0 ∧
        (s.particleTimeStep idx).particleAccelerations (idx + 1) = 0 ∧
        (s.particleTimeStep idx).particleAccelerations (idx + 2) = 0)) ∧
    (s.isPositionFixed idx = false → s.damping = 0 →
      s.lastParticlePositions idx = s.particlePositions idx →
      s.lastParticlePositions (idx + 1) = s.particlePositions (idx + 1) →
      s.lastParticlePositions (idx + 2) = s.particlePositions (idx + 2) →
      ((s.particleTimeStep idx).particlePositions idx - s.particlePositions idx =
          s.particleAccelerations idx * s.timeStepPerFrame ∧
        (s.particleTimeStep idx).particlePositions (idx + 1) - s.particlePositions (idx + 1) =
          s.particleAccelerations (idx + 1) * s.timeStepPerFrame ∧
        (s.particleTimeStep idx).particlePositions (idx + 2) - s.particlePositions (idx + 2) =
          s.particleAccelerations (idx + 2) * s.timeStepPerFrame)) ∧
    (s.isPositionFixed idx = true →
      (s.particleTimeStep idx).particlePositions = s.particlePositions ∧
      (s.particleTimeStep idx).lastParticlePositions = s.lastParticlePositions) := by
  have hfree : s.isPositionFixed idx = false →
      ((s.particleTimeStep idx).particlePositions idx =
          s.particlePositions idx +
            (s.particlePositions idx - s.lastParticlePositions idx) * (1 - s.damping) +
            s.particleAccelerations idx * s.timeStepPerFrame ∧
        (s.particleTimeStep idx).particlePositions (idx + 1) =
          s.particlePositions (idx + 1) +
            (s.particlePositions (idx + 1) - s.lastParticlePositions (idx + 1)) * (1 - s.damping) +
            s.particleAccelerations (idx + 1) * s.timeStepPerFrame ∧
        (s.particleTimeStep idx).particlePositions (idx + 2) =
          s.particlePositions (idx + 2) +
            (s.particlePositions (idx + 2) - s.lastParticlePositions (idx + 2)) * (1 - s.damping) +
            s.particleAccelerations (idx + 2) * s.timeStepPerFrame) ∧
      ((s.particleTimeStep idx).lastParticlePositions idx = s.particlePositions idx ∧
        (s.particleTimeStep idx).lastParticlePositions (idx + 1) = s.particlePositions (idx + 1) ∧
        (s.particleTimeStep idx).lastParticlePositions (idx + 2) = s.particlePositions (idx + 2)) ∧
      ((s.particleTimeStep idx).particleAccelerations idx = 0 ∧
        (s.particleTimeStep idx).particleAccelerations (idx + 1) = 0 ∧
        (s.particleTimeStep idx).particleAccelerations (idx + 2) = 0) := by
    intro h
    unfold ClothSimulation.particleTimeStep
    rw [h]
    simp only [Bool.false_eq_true, if_false, writeVec_apply]
    norm_num
  refine ⟨hfree, fun h hd h0 h1 h2 => ?_, fun h => ?_⟩
  · obtain ⟨⟨e0, e1, e2⟩, _, _⟩ := hfree h
    rw [e0, e1, e2, hd, h0, h1, h2]
    constructor
    · ring
    constructor
    · ring
    · ring
  · unfold ClothSimulation.particleTimeStep
    rw [h]
    simp

/-- The initial position buffer of a concrete 2×2 grid built from the corners
`(0,0,0), (3,0,0), (3,4,0), (0,4,0)` with spacings 3 and 4: one 3×4 cell,
all diagonals of length 5. -/
def examplePositions : ℕ → ℝ :=
  fun j => [0, 0, 0, 3, 0, 0, 0, 4, 0, 3, 4, 0].getD j 0

/-- A concrete 2×2-particle simulation state: flat rectangle in the z = 0
plane, particle `(0,0)` fixed, upward wind `(0,0,1)`, zero gravity, the
constraint set produced by `build` for this grid, and no collision spheres. -/
def exampleState : ClothSimulation where
  config :=
    { p1 := ⟨0, 0, 0⟩
      p2 := ⟨3, 0, 0⟩
      p3 := ⟨3, 4, 0⟩
      p4 := ⟨0, 4, 0⟩
      widthAxisParticleDistance := 3
      heightAxisParticleDistance := 4
      gravity := Vec3.zero
      wind := ⟨0, 0, 1⟩ }
  nbParticlesWidth := 2
  nbParticlesHeight := 2
  particlePositions := examplePositions
  lastParticlePositions := examplePositions
  particleAccelerations := fun _ => 0
  particleNormals := fun _ => 0
  particlePositionsHigh := fun _ => 0
  particlePositionsLow := fun _ => 0
  isPositionFixed := fun j => decide (j = 0)
  particleConstraints := buildConstraints examplePositions 2 2 true
  collisionSpheres := []
  damping := 0.01
  timeStepPerFrame := 0.25
  nbSimulationIterations := 15
  particleMass := 1
  windNoiseStep := 0

/-- C4 witness: the Verlet theorem applied to the unfixed particle `(1,0)`
(base slot 3) of the concrete 2×2 state. -/
theorem particleTimeStep_verlet_witness :
    exampleState.isPositionFixed 3 = false ∧
    (exampleState.particleTimeStep 3).particleAccelerations 3 = 0 ∧
    (exampleState.particleTimeStep 3).lastParticlePositions 3 =
      exampleState.particlePositions 3 :=
  ⟨rfl, ((particleTimeStep_verlet exampleState 3).1 rfl).2.2.1,
    ((particleTimeStep_verlet exampleState 3).1 rfl).2.1.1⟩

/-- Evaluation helper: the square root of a product `b * b` with `b ≥ 0`. -/
theorem real_sqrt_eval (a b : ℝ) (hb : 0 ≤ b) (h : a = b * b) : Real.sqrt a = b := by
  rw [h, Real.sqrt_mul_self hb]

/-- C5: grid dimensions.  With positive spacings, the built grid has
`width = floor(distance(p1,p2)/spacing_w) + 1` and
`height = floor(distance(p1,p4)/spacing_h) + 1`, and both dimensions are at
least 1. -/
theorem buildGridCounts_spec (c : ClothConfiguration)
    (hw : 0 < c.widthAxisParticleDistance) (hh : 0 < c.heightAxisParticleDistance) :
    ((buildGridCounts c).1 : ℤ) =
      ⌊Vec3.distance c.p1 c.p2 / c.widthAxisParticleDistance⌋ + 1 ∧
    ((buildGridCounts c).2 : ℤ) =
      ⌊Vec3.distance c.p1 c.p4 / c.heightAxisParticleDistance⌋ + 1 ∧
    1 ≤ (buildGridCounts c).1 ∧ 1 ≤ (buildGridCounts c).2 := by
  have hd1 : 0 ≤ Vec3.distance c.p1 c.p2 := by
    unfold Vec3.distance Vec3.magnitude
    exact Real.sqrt_nonneg _
  have hd2 : 0 ≤ Vec3.distance c.p1 c.p4 := by
    unfold Vec3.distance Vec3.magnitude
    exact Real.sqrt_nonneg _
  have hf1 : (0 : ℤ) ≤ ⌊Vec3.distance c.p1 c.p2 / c.widthAxisParticleDistance⌋ :=
    Int.floor_nonneg.mpr (div_nonneg hd1 hw.le)
  have hf2 : (0 : ℤ) ≤ ⌊Vec3.distance c.p1 c.p4 / c.heightAxisParticleDistance⌋ :=
    Int.floor_nonneg.mpr (div_nonneg hd2 hh.le)
  unfold buildGridCounts
  refine ⟨?_, ?_, Nat.le_add_left 1 _, Nat.le_add_left 1 _⟩
  · push_cast [Int.toNat_of_nonneg hf1]
    ring
  · push_cast [Int.toNat_of_nonneg hf2]
    ring

/-- C5 witness: the dimension theorem applied to the concrete configuration of
the 2×2 example (axis lengths 3 and 4, spacings 3 and 4), whose grid is 2×2. -/
theorem buildGridCounts_spec_witness :
    0 < exampleState.config.widthAxisParticleDistance ∧
    0 < exampleState.config.heightAxisParticleDistance ∧
    ((buildGridCounts exampleState.config).1 : ℤ) =
      ⌊Vec3.distance exampleState.config.p1 exampleState.config.p2 /
          exampleState.config.widthAxisParticleDistance⌋ + 1 ∧
    buildGridCounts exampleState.config = (2, 2) := by
  have h1 : 0 < exampleState.config.widthAxisParticleDistance := by
    show (0 : ℝ) < 3
    norm_num
  have h2 : 0 < exampleState.config.heightAxisParticleDistance := by
    show (0 : ℝ) < 4
    norm_num
  refine ⟨h1, h2, (buildGridCounts_spec _ h1 h2).1, ?_⟩
  have hd1 : Vec3.distance exampleState.config.p1 exampleState.config.p2 = 3 := by
    show Vec3.distance ⟨0, 0, 0⟩ ⟨3, 0, 0⟩ = 3
    unfold Vec3.distance Vec3.magnitude Vec3.sub
    apply real_sqrt_eval
    · norm_num
    · norm_num
  have hd2 : Vec3.distance exampleState.config.p1 exampleState.config.p4 = 4 := by
    show Vec3.distance ⟨0, 0, 0⟩ ⟨0, 4, 0⟩ = 4
    unfold Vec3.distance Vec3.magnitude Vec3.sub
    apply real_sqrt_eval
    · norm_num
    · norm_num
  show (((⌊Vec3.distance exampleState.config.p1 exampleState.config.p2 /
      exampleState.config.widthAxisParticleDistance⌋).toNat + 1,
    (⌊Vec3.distance exampleState.config.p1 exampleState.config.p4 /
      exampleState.config.heightAxisParticleDistance⌋).toNat + 1) : ℕ × ℕ) = (2, 2)
  rw [hd1, hd2]
  show ((⌊(3 : ℝ) / 3⌋.toNat + 1, ⌊(4 : ℝ) / 4⌋.toNat + 1) : ℕ × ℕ) = (2, 2)
  norm_num

/-- The vector stored at the three consecutive slots of a flat buffer. -/
def bufVec (pos : ℕ → ℝ) (idx : ℕ) : Vec3 := ⟨pos idx, pos (idx + 1), pos (idx + 2)⟩

theorem sum_indicator_lt (w k : ℕ) :
    ∑ x in Finset.range w, (if x < k then (1 : ℕ) else 0) = min k w := by
  rw [Finset.sum_boole]
  have : (Finset.range w).filter (fun x => x < k) = Finset.range (min k w) := by
    ext a
    simp only [Finset.mem_filter, Finset.mem_range, lt_min_iff]
    omega
  rw [this]
  simp

theorem grid_cell_length_sum (w h kx ky : ℕ) (f : ℕ → ℕ → List Constraint)
    (hf : ∀ x y, (f x y).length =
      (if x < kx then 1 else 0) + (if y < ky then 1 else 0) +
        (if x < kx ∧ y < ky then 2 else 0)) :
    ((List.range h).flatMap fun y => (List.range w).flatMap fun x => f x y).length =
      h * min kx w + w * min ky h + 2 * min kx w * min ky h := by
  have hrow : ∀ y, ((List.range w).flatMap fun x => f x y).length =
      min kx w + (if y < ky then w + 2 * min kx w else 0) := by
    intro y
    rw [List.length_flatMap]
    show ∑ x in Finset.range w, (f x y).length = _
    calc ∑ x in Finset.range w, (f x y).length
        = ∑ x in Finset.range w,
            ((if x < kx then 1 else 0) + (if y < ky then 1 else 0) +
              (if x < kx ∧ y < ky then 2 else 0)) := by
          exact Finset.sum_congr rfl fun x _ => hf x y
      _ = (∑ x in Finset.range w, (if x < kx then (1 : ℕ) else 0)) +
            (∑ _x in Finset.range w, (if y < ky then (1 : ℕ) else 0)) +
            (∑ x in Finset.range w, (if x < kx ∧ y < ky then (2 : ℕ) else 0)) := by
          rw [← Finset.sum_add_distrib, ← Finset.sum_add_distrib]
      _ = min kx w + (if y < ky then w + 2 * min kx w else 0) := by
          rw [sum_indicator_lt]
          by_cases hy : y < ky
          · simp only [hy, and_true, if_true]
            have h2 : ∑ x in Finset.range w, (if x < kx then (2 : ℕ) else 0) =
                2 * min kx w := by
              have : ∀ x, (if x < kx then (2 : ℕ) else 0) =
                  2 * (if x < kx then (1 : ℕ) else 0) := by
                intro x
                split <;> simp
              rw [Finset.sum_congr rfl fun x _ => this x, ← Finset.mul_sum,
                sum_indicator_lt]
            rw [h2]
            simp [Finset.sum_const]
            ring
          · simp only [hy, and_false, if_false]
            simp
  rw [List.length_flatMap]
  show ∑ y in Finset.range h, ((List.range w).flatMap fun x => f x y).length = _
  calc ∑ y in Finset.range h, ((List.range w).flatMap fun x => f x y).length
      = ∑ y in Finset.range h,
          (min kx w + (if y < ky then w + 2 * min kx w else 0)) := by
        exact Finset.sum_congr rfl fun y _ => hrow y
    _ = (∑ _y in Finset.range h, min kx w) +
          ∑ y in Finset.range h, (if y < ky then w + 2 * min kx w else 0) := by
        rw [← Finset.sum_add_distrib]
    _ = h * min kx w + (w + 2 * min kx w) * min ky h := by
        have : ∀ y, (if y < ky then w + 2 * min kx w else 0) =
            (w + 2 * min kx w) * (if y < ky then (1 : ℕ) else 0) := by
          intro y
          split <;> simp
        rw [Finset.sum_congr rfl fun y _ => this y, ← Finset.mul_sum, sum_indicator_lt]
        simp [Finset.sum_const, mul_comm]
    _ = h * min kx w + w * min ky h + 2 * min kx w * min ky h := by ring

theorem cellStructuralConstraints_length (pos : ℕ → ℝ) (w h x y : ℕ) :
    (cellStructuralConstraints pos w h x y).length =
      (if x < w - 1 then 1 else 0) + (if y < h - 1 then 1 else 0) +
        (if x < w - 1 ∧ y < h - 1 then 2 else 0) := by
  unfold cellStructuralConstraints
  split_ifs with h1 h2 h3 <;> simp_all

theorem cellSecondaryConstraints_length (pos : ℕ → ℝ) (w h x y : ℕ) :
    (cellSecondaryConstraints pos w h x y).length =
      (if x < w - 2 then 1 else 0) + (if y < h - 2 then 1 else 0) +
        (if x < w - 2 ∧ y < h - 2 then 2 else 0) := by
  unfold cellSecondaryConstraints
  split_ifs with h1 h2 h3 <;> simp_all

theorem structuralConstraints_length (pos : ℕ → ℝ) (w h : ℕ) :
    (structuralConstraints pos w h).length =
      (w - 1) * h + (h - 1) * w + 2 * (w - 1) * (h - 1) := by
  unfold structuralConstraints
  rw [grid_cell_length_sum w h (w - 1) (h - 1) _ (cellStructuralConstraints_length pos w h),
    min_eq_left (Nat.sub_le w 1), min_eq_left (Nat.sub_le h 1)]
  ring

theorem secondaryConstraints_length (pos : ℕ → ℝ) (w h : ℕ) :
    (secondaryConstraints pos w h).length =
      (w - 2) * h + (h - 2) * w + 2 * (w - 2) * (h - 2) := by
  unfold secondaryConstraints
  rw [grid_cell_length_sum w h (w - 2) (h - 2) _ (cellSecondaryConstraints_length pos w h),
    min_eq_left (Nat.sub_le w 2), min_eq_left (Nat.sub_le h 2)]
  ring

theorem buildConstraints_restDistance (pos : ℕ → ℝ) (w h : ℕ) (sec : Bool) :
    ∀ c ∈ buildConstraints pos w h sec,
      c.distance = Vec3.distance (bufVec pos c.idx2) (bufVec pos c.idx1) := by
  have hopt : ∀ (P : Prop) (hd : Decidable P) (i j : ℕ) (c : Constraint),
      c ∈ (if P then [addConstraint pos i j] else []) →
      c.distance = Vec3.distance (bufVec pos c.idx2) (bufVec pos c.idx1) := by
    intro P hd i j c hc
    split at hc
    · rw [List.mem_singleton] at hc
      subst hc
      rfl
    · exact absurd hc (List.not_mem_nil c)
  intro c hc
  unfold buildConstraints at hc
  rcases List.mem_append.mp hc with hc | hc
  · unfold structuralConstraints at hc
    rw [List.mem_flatMap] at hc
    obtain ⟨y, -, hc⟩ := hc
    rw [List.mem_flatMap] at hc
    obtain ⟨x, -, hc⟩ := hc
    unfold cellStructuralConstraints at hc
    rcases List.mem_append.mp hc with hc | hc
    · rcases List.mem_append.mp hc with hc | hc
      · rcases List.mem_append.mp hc with hc | hc
        · exact hopt _ _ _ _ _ hc
        · exact hopt _ _ _ _ _ hc
      · exact hopt _ _ _ _ _ hc
    · exact hopt _ _ _ _ _ hc
  · split at hc
    · unfold secondaryConstraints at hc
      rw [List.mem_flatMap] at hc
      obtain ⟨y, -, hc⟩ := hc
      rw [List.mem_flatMap] at hc
      obtain ⟨x, -, hc⟩ := hc
      unfold cellSecondaryConstraints at hc
      rcases List.mem_append.mp hc with hc | hc
      · rcases List.mem_append.mp hc with hc | hc
        · rcases List.mem_append.mp hc with hc | hc
          · exact hopt _ _ _ _ _ hc
          · exact hopt _ _ _ _ _ hc
        · exact hopt _ _ _ _ _ hc
      · exact hopt _ _ _ _ _ hc
    · exact absurd hc (List.not_mem_nil c)

/-- C6: constraint counts and rest distances.  A built `w × h` grid creates
`(w-1)*h + (h-1)*w + 2*(w-1)*(h-1)` structural constraints; with the
secondary-neighbor flag enabled it additionally creates
`(w-2)*h + (h-2)*w + 2*(w-2)*(h-2)` stride-2 constraints; and every created
constraint's rest distance is the Euclidean distance of its two endpoint
positions in the build-time position buffer. -/
theorem buildConstraints_count (pos : ℕ → ℝ) (w h : ℕ) (hw : 2 ≤ w) (hh : 2 ≤ h) :
    (structuralConstraints pos w h).length =
      (w - 1) * h + (h - 1) * w + 2 * (w - 1) * (h - 1) ∧
    (secondaryConstraints pos w h).length =
      (w - 2) * h + (h - 2) * w + 2 * (w - 2) * (h - 2) ∧
    (buildConstraints pos w h false).length =
      (w - 1) * h + (h - 1) * w + 2 * (w - 1) * (h - 1) ∧
    (buildConstraints pos w h true).length =
      ((w - 1) * h + (h - 1) * w + 2 * (w - 1) * (h - 1)) +
        ((w - 2) * h + (h - 2) * w + 2 * (w - 2) * (h - 2)) ∧
    (∀ c ∈ buildConstraints pos w h true,
      c.distance = Vec3.distance (bufVec pos c.idx2) (bufVec pos c.idx1)) ∧
    (∀ c ∈ buildConstraints pos w h false,
      c.distance = Vec3.distance (bufVec pos c.idx2) (bufVec pos c.idx1)) := by
  refine ⟨structuralConstraints_length pos w h, secondaryConstraints_length pos w h, ?_, ?_,
    buildConstraints_restDistance pos w h true, buildConstraints_restDistance pos w h false⟩
  · unfold buildConstraints
    rw [if_neg (by simp), List.append_nil]
    exact structuralConstraints_length pos w h
  · unfold buildConstraints
    rw [if_pos rfl, List.length_append, structuralConstraints_length,
      secondaryConstraints_length]

/-- C6 witness: the count theorem applied to the concrete 2×2 grid, which has
6 structural constraints and no secondary constraints. -/
theorem buildConstraints_count_witness :
    2 ≤ 2 ∧
    (buildConstraints examplePositions 2 2 true).length = 6 ∧
    (structuralConstraints examplePositions 2 2).length = 6 ∧
    (secondaryConstraints examplePositions 2 2).length = 0 := by
  have h := buildConstraints_count examplePositions 2 2 (le_refl 2) (le_refl 2)
  refine ⟨le_refl 2, ?_, ?_, ?_⟩
  · rw [h.2.2.2.1]
  · rw [h.1]
  · rw [h.2.1]

namespace ClothSimulation

theorem satisfyConstraint_shape (s : ClothSimulation) (c : Constraint) :
    ∃ p, s.satisfyConstraint c = { s with particlePositions := p } := by
  unfold satisfyConstraint
  split <;> dsimp only <;> split
  · exact ⟨s.particlePositions, rfl⟩
  · exact ⟨_, rfl⟩
  · exact ⟨_, rfl⟩
  · exact ⟨_, rfl⟩

theorem constraintFold_shape (cs : List Constraint) (s : ClothSimulation) :
    ∃ p, cs.foldl satisfyConstraint s = { s with particlePositions := p } := by
  induction cs generalizing s with
  | nil => exact ⟨s.particlePositions, rfl⟩
  | cons c cs ih =>
    obtain ⟨p1, hp1⟩ := satisfyConstraint_shape s c
    obtain ⟨p2, hp2⟩ := ih { s with particlePositions := p1 }
    exact ⟨p2, by rw [List.foldl_cons, hp1, hp2]⟩

theorem constraintPhase_shape (n : ℕ) (s : ClothSimulation) :
    ∃ p, (fun t : ClothSimulation => t.particleConstraints.foldl satisfyConstraint t)^[n] s =
      { s with particlePositions := p } := by
  induction n generalizing s with
  | zero => exact ⟨s.particlePositions, rfl⟩
  | succ n ih =>
    rw [Function.iterate_succ_apply]
    obtain ⟨p1, hp1⟩ := constraintFold_shape s.particleConstraints s
    obtain ⟨p2, hp2⟩ := ih { s with particlePositions := p1 }
    exact ⟨p2, by rw [hp1, hp2]⟩

theorem collideParticle_shape (sphere : CollisionSphere) (s : ClothSimulation) (idx : ℕ) :
    ∃ p, collideParticle sphere s idx = { s with particlePositions := p } := by
  unfold collideParticle
  split
  · exact ⟨s.particlePositions, rfl⟩
  · dsimp only
    split
    · exact ⟨_, rfl⟩
    · exact ⟨s.particlePositions, rfl⟩

theorem collideFold_shape (sph : CollisionSphere) (L : List (ℕ × ℕ)) (s : ClothSimulation) :
    ∃ p, L.foldl (fun t p => collideParticle sph t (t.getIndex p.1 p.2)) s =
      { s with particlePositions := p } := by
  induction L generalizing s with
  | nil => exact ⟨s.particlePositions, rfl⟩
  | cons a L ih =>
    obtain ⟨p1, hp1⟩ := collideParticle_shape sph s (s.getIndex a.1 a.2)
    obtain ⟨p2, hp2⟩ := ih { s with particlePositions := p1 }
    rw [List.foldl_cons]
    refine ⟨p2, ?_⟩
    have hidx : s.getIndex a.1 a.2 =
        ClothSimulation.getIndex { s with particlePositions := p1 } a.1 a.2 := rfl
    rw [← hp2, hp1]

theorem computeSphereCollision_shape (s : ClothSimulation) (sphere : CollisionSphere) :
    ∃ p, (s.computeSphereCollision sphere).2 = { s with particlePositions := p } := by
  unfold computeSphereCollision
  exact collideFold_shape _ _ s

end ClothSimulation

theorem gridIndex_inj {w x y x' y' : ℕ} (hx : x < w) (hx' : x' < w)
    (h : gridIndex w x y = gridIndex w x' y') : x = x' ∧ y = y' := by
  unfold gridIndex at h
  have hb : y * w + x = y' * w + x' := by
    have h1 : y * (w * 3) + x * 3 = (y * w + x) * 3 := by ring
    have h2 : y' * (w * 3) + x' * 3 = (y' * w + x') * 3 := by ring
    omega
  rcases Nat.lt_trichotomy y y' with hy | hy | hy
  · exfalso
    have h1 : (y + 1) * w ≤ y' * w := Nat.mul_le_mul_right w hy
    have h2 : (y + 1) * w = y * w + w := by ring
    omega
  · subst hy
    omega
  · exfalso
    have h1 : (y' + 1) * w ≤ y * w := Nat.mul_le_mul_right w hy
    have h2 : (y' + 1) * w = y' * w + w := by ring
    omega

theorem gridIndex_slot_disjoint {w x y x' y' : ℕ} (hx : x < w) (hx' : x' < w)
    (hne : ¬(x = x' ∧ y = y')) {k k' : ℕ} (hk : k < 3) (hk' : k' < 3) :
    gridIndex w x y + k ≠ gridIndex w x' y' + k' := by
  intro h
  have h1 : gridIndex w x y = 3 * (y * w + x) := by unfold gridIndex; ring
  have h2 : gridIndex w x' y' = 3 * (y' * w + x') := by unfold gridIndex; ring
  have hb : y * w + x = y' * w + x' := by omega
  exact hne (gridIndex_inj hx hx' (by rw [h1, h2, hb]))

namespace ClothSimulation

theorem particleTimeStep_fixedFlags (s : ClothSimulation) (idx : ℕ) :
    (s.particleTimeStep idx).isPositionFixed = s.isPositionFixed := by
  unfold particleTimeStep
  split <;> rfl

theorem particleTimeStep_width (s : ClothSimulation) (idx : ℕ) :
    (s.particleTimeStep idx).nbParticlesWidth = s.nbParticlesWidth := by
  unfold particleTimeStep
  split <;> rfl

theorem particleTimeStep_height (s : ClothSimulation) (idx : ℕ) :
    (s.particleTimeStep idx).nbParticlesHeight = s.nbParticlesHeight := by
  unfold particleTimeStep
  split <;> rfl

theorem particleTimeStep_acc_outside (s : ClothSimulation) (idx j : ℕ)
    (h1 : j ≠ idx) (h2 : j ≠ idx + 1) (h3 : j ≠ idx + 2) :
    (s.particleTimeStep idx).particleAccelerations j = s.particleAccelerations j := by
  unfold particleTimeStep
  split
  · rfl
  · exact writeVec_apply_of_disjoint _ _ _ _ _ _ h1 h2 h3

theorem particleTimeStep_acc_own (s : ClothSimulation) (idx : ℕ)
    (hfree : s.isPositionFixed idx = false) {k : ℕ} (hk : k < 3) :
    (s.particleTimeStep idx).particleAccelerations (idx + k) = 0 := by
  unfold particleTimeStep
  rw [if_neg (by rw [hfree]; exact Bool.false_ne_true)]
  show writeVec s.particleAccelerations idx 0 0 0 (idx + k) = 0
  rw [writeVec_apply]
  interval_cases k <;> simp

theorem collideParticle_fixedFlags (sph : CollisionSphere) (s : ClothSimulation) (idx : ℕ) :
    (collideParticle sph s idx).isPositionFixed = s.isPositionFixed := by
  obtain ⟨p, hp⟩ := collideParticle_shape sph s idx
  rw [hp]

theorem collideParticle_width (sph : CollisionSphere) (s : ClothSimulation) (idx : ℕ) :
    (collideParticle sph s idx).nbParticlesWidth = s.nbParticlesWidth := by
  obtain ⟨p, hp⟩ := collideParticle_shape sph s idx
  rw [hp]

theorem collideParticle_height (sph : CollisionSphere) (s : ClothSimulation) (idx : ℕ) :
    (collideParticle sph s idx).nbParticlesHeight = s.nbParticlesHeight := by
  obtain ⟨p, hp⟩ := collideParticle_shape sph s idx
  rw [hp]

theorem collideParticle_pos_outside (sph : CollisionSphere) (s : ClothSimulation) (idx j : ℕ)
    (h1 : j ≠ idx) (h2 : j ≠ idx + 1) (h3 : j ≠ idx + 2) :
    (collideParticle sph s idx).particlePositions j = s.particlePositions j := by
  unfold collideParticle
  split
  · rfl
  · dsimp only
    split
    · exact writeVec_apply_of_disjoint _ _ _ _ _ _ h1 h2 h3
    · rfl

end ClothSimulation

namespace ClothSimulation

theorem mem_particleCoordsXOuter {w h x y : ℕ} :
    (x, y) ∈ particleCoordsXOuter w h ↔ x < w ∧ y < h := by
  unfold particleCoordsXOuter
  simp only [List.mem_flatMap, List.mem_map, List.mem_range, Prod.mk.injEq]
  constructor
  · rintro ⟨a, ha, b, hb, rfl, rfl⟩
    exact ⟨ha, hb⟩
  · rintro ⟨hx, hy⟩
    exact ⟨x, hx, y, hy, rfl, rfl⟩

theorem mem_particleCoordsYOuter {w h x y : ℕ} :
    (x, y) ∈ particleCoordsYOuter w h ↔ x < w ∧ y < h := by
  unfold particleCoordsYOuter
  simp only [List.mem_flatMap, List.mem_map, List.mem_range, Prod.mk.injEq]
  constructor
  · rintro ⟨b, hb, a, ha, rfl, rfl⟩
    exact ⟨ha, hb⟩
  · rintro ⟨hx, hy⟩
    exact ⟨y, hy, x, hx, rfl, rfl⟩

theorem nodup_particleCoordsXOuter (w h : ℕ) : (particleCoordsXOuter w h).Nodup := by
  unfold particleCoordsXOuter
  rw [List.nodup_flatMap]
  constructor
  · intro x _
    exact (List.nodup_range h).map fun a b hab => (Prod.mk.injEq _ _ _ _ ▸ hab :
      x = x ∧ a = b).2
  · refine (List.pairwise_lt_range w).imp ?_
    intro a b hab p hp hp'
    simp only [List.mem_map, List.mem_range] at hp hp'
    obtain ⟨u, -, rfl⟩ := hp
    obtain ⟨v, -, hv⟩ := hp'
    exact absurd ((Prod.mk.injEq _ _ _ _ ▸ hv.symm : a = b ∧ u = v).1) hab.ne

theorem nodup_particleCoordsYOuter (w h : ℕ) : (particleCoordsYOuter w h).Nodup := by
  unfold particleCoordsYOuter
  rw [List.nodup_flatMap]
  constructor
  · intro y _
    exact (List.nodup_range w).map fun a b hab => (Prod.mk.injEq _ _ _ _ ▸ hab :
      a = b ∧ y = y).1
  · refine (List.pairwise_lt_range h).imp ?_
    intro a b hab p hp hp'
    simp only [List.mem_map, List.mem_range] at hp hp'
    obtain ⟨u, -, rfl⟩ := hp
    obtain ⟨v, -, hv⟩ := hp'
    exact absurd ((Prod.mk.injEq _ _ _ _ ▸ hv.symm : u = v ∧ a = b).2) hab.ne

end ClothSimulation

namespace ClothSimulation

theorem integrationFold_width (L : List (ℕ × ℕ)) (s : ClothSimulation) :
    (L.foldl (fun t p => t.particleTimeStep (t.getIndex p.1 p.2)) s).nbParticlesWidth =
      s.nbParticlesWidth :=
  foldl_proj_eq nbParticlesWidth _ L s fun t p => particleTimeStep_width t (t.getIndex p.1 p.2)

theorem integrationFold_height (L : List (ℕ × ℕ)) (s : ClothSimulation) :
    (L.foldl (fun t p => t.particleTimeStep (t.getIndex p.1 p.2)) s).nbParticlesHeight =
      s.nbParticlesHeight :=
  foldl_proj_eq nbParticlesHeight _ L s fun t p => particleTimeStep_height t (t.getIndex p.1 p.2)

theorem integrationFold_fixedFlags (L : List (ℕ × ℕ)) (s : ClothSimulation) :
    (L.foldl (fun t p => t.particleTimeStep (t.getIndex p.1 p.2)) s).isPositionFixed =
      s.isPositionFixed :=
  foldl_proj_eq isPositionFixed _ L s fun t p => particleTimeStep_fixedFlags t (t.getIndex p.1 p.2)

theorem integrationFold_acc_untouched (L : List (ℕ × ℕ)) (s : ClothSimulation) (j : ℕ)
    (h : ∀ p ∈ L, ∀ k < 3, gridIndex s.nbParticlesWidth p.1 p.2 + k ≠ j) :
    (L.foldl (fun t p => t.particleTimeStep (t.getIndex p.1 p.2)) s).particleAccelerations j =
      s.particleAccelerations j := by
  induction L generalizing s with
  | nil => rfl
  | cons a L ih =>
    rw [List.foldl_cons]
    have ha := h a (List.mem_cons_self a L)
    have h0 := ha 0 (by norm_num)
    have h1 := ha 1 (by norm_num)
    have h2 := ha 2 (by norm_num)
    rw [Nat.add_zero] at h0
    have hstep : (s.particleTimeStep (s.getIndex a.1 a.2)).particleAccelerations j =
        s.particleAccelerations j :=
      particleTimeStep_acc_outside s _ j (Ne.symm h0) (Ne.symm h1) (Ne.symm h2)
    rw [ih _ ?_, hstep]
    intro p hp k hk
    rw [particleTimeStep_width]
    exact h p (List.mem_cons_of_mem a hp) k hk

theorem collideFold_width (sph : CollisionSphere) (L : List (ℕ × ℕ)) (s : ClothSimulation) :
    (L.foldl (fun t p => collideParticle sph t (t.getIndex p.1 p.2)) s).nbParticlesWidth =
      s.nbParticlesWidth :=
  foldl_proj_eq nbParticlesWidth _ L s fun t p => collideParticle_width sph t (t.getIndex p.1 p.2)

theorem collideFold_fixedFlags (sph : CollisionSphere) (L : List (ℕ × ℕ)) (s : ClothSimulation) :
    (L.foldl (fun t p => collideParticle sph t (t.getIndex p.1 p.2)) s).isPositionFixed =
      s.isPositionFixed :=
  foldl_proj_eq isPositionFixed _ L s fun t p =>
    collideParticle_fixedFlags sph t (t.getIndex p.1 p.2)

theorem collideFold_pos_untouched (sph : CollisionSphere) (L : List (ℕ × ℕ))
    (s : ClothSimulation) (j : ℕ)
    (h : ∀ p ∈ L, ∀ k < 3, gridIndex s.nbParticlesWidth p.1 p.2 + k ≠ j) :
    (L.foldl (fun t p => collideParticle sph t (t.getIndex p.1 p.2)) s).particlePositions j =
      s.particlePositions j := by
  induction L generalizing s with
  | nil => rfl
  | cons a L ih =>
    rw [List.foldl_cons]
    have ha := h a (List.mem_cons_self a L)
    have h0 := ha 0 (by norm_num)
    have h1 := ha 1 (by norm_num)
    have h2 := ha 2 (by norm_num)
    rw [Nat.add_zero] at h0
    have hstep : (collideParticle sph s (s.getIndex a.1 a.2)).particlePositions j =
        s.particlePositions j :=
      collideParticle_pos_outside sph s _ j (Ne.symm h0) (Ne.symm h1) (Ne.symm h2)
    rw [ih _ ?_, hstep]
    intro p hp k hk
    rw [collideParticle_width]
    exact h p (List.mem_cons_of_mem a hp) k hk

end ClothSimulation

/-- The sphere center after the interpolation step of `computeSphereCollision`. -/
def movedCenter (sphere : CollisionSphere) : Vec3 :=
  Vec3.lerp sphere.sphereCenter sphere.sphereDestination sphere.dt

namespace ClothSimulation

theorem collideParticle_pos_own_congr (sph : CollisionSphere) (t s : ClothSimulation) (idx : ℕ)
    (hfix : t.isPositionFixed idx = s.isPositionFixed idx)
    (h0 : t.particlePositions idx = s.particlePositions idx)
    (h1 : t.particlePositions (idx + 1) = s.particlePositions (idx + 1))
    (h2 : t.particlePositions (idx + 2) = s.particlePositions (idx + 2)) :
    ∀ k < 3, (collideParticle sph t idx).particlePositions (idx + k) =
      (collideParticle sph s idx).particlePositions (idx + k) := by
  intro k hk
  unfold collideParticle
  dsimp only
  rw [hfix, h0, h1, h2]
  split_ifs with hfx hlt
  · interval_cases k
    · rw [Nat.add_zero]; exact h0
    · exact h1
    · exact h2
  · dsimp only
    rw [writeVec_apply, writeVec_apply]
    interval_cases k <;> simp
  · interval_cases k
    · rw [Nat.add_zero]; exact h0
    · exact h1
    · exact h2

theorem computeSphereCollision_pos_own (s : ClothSimulation) (sphere : CollisionSphere)
    {x y : ℕ} (hx : x < s.nbParticlesWidth) (hy : y < s.nbParticlesHeight)
    {k : ℕ} (hk : k < 3) :
    (s.computeSphereCollision sphere).2.particlePositions (s.getIndex x y + k) =
      (collideParticle
        { sphere with
          sphereCenter := movedCenter sphere
          dt := sphere.dt + sphere.speed } s (s.getIndex x y)).particlePositions
        (s.getIndex x y + k) := by
  unfold computeSphereCollision movedCenter
  dsimp only
  set sph2 : CollisionSphere :=
    { sphere with
      sphereCenter := Vec3.lerp sphere.sphereCenter sphere.sphereDestination sphere.dt
      dt := sphere.dt + sphere.speed } with hsph2
  obtain ⟨L1, L2, hL⟩ := List.append_of_mem (mem_particleCoordsXOuter.mpr ⟨hx, hy⟩)
  have hnd := nodup_particleCoordsXOuter s.nbParticlesWidth s.nbParticlesHeight
  rw [hL] at hnd
  have hnd' := List.nodup_append.mp hnd
  have hnotm1 : (x, y) ∉ L1 := fun hm => hnd'.2.2 hm (List.mem_cons_self _ _)
  have hnotm2 : (x, y) ∉ L2 := (List.nodup_cons.mp hnd'.2.1).1
  have hmemL : ∀ p, p ∈ L1 ∨ p ∈ L2 → p.1 < s.nbParticlesWidth ∧ p.2 < s.nbParticlesHeight := by
    intro p hp
    have hmem : p ∈ particleCoordsXOuter s.nbParticlesWidth s.nbParticlesHeight := by
      rw [hL]
      rcases hp with hp | hp
      · exact List.mem_append.mpr (Or.inl hp)
      · exact List.mem_append.mpr (Or.inr (List.mem_cons_of_mem _ hp))
    rcases p with ⟨a, b⟩
    exact mem_particleCoordsXOuter.mp hmem
  have hdisj : ∀ p, (p ∈ L1 ∨ p ∈ L2) → ∀ k1 < 3, ∀ k2 < 3,
      gridIndex s.nbParticlesWidth p.1 p.2 + k1 ≠ gridIndex s.nbParticlesWidth x y + k2 := by
    intro p hp k1 hk1 k2 hk2
    have hpin := hmemL p hp
    have hpne : ¬(p.1 = x ∧ p.2 = y) := by
      rintro ⟨he1, he2⟩
      have hpe : p = (x, y) := by
        rcases p with ⟨a, b⟩
        simp_all
      rcases hp with hp | hp
      · exact hnotm1 (hpe ▸ hp)
      · exact hnotm2 (hpe ▸ hp)
    exact gridIndex_slot_disjoint hpin.1 hx hpne hk1 hk2
  rw [hL, List.foldl_append, List.foldl_cons]
  set s1 := L1.foldl (fun t p => collideParticle sph2 t (t.getIndex p.1 p.2)) s with hs1def
  have hw1 : s1.nbParticlesWidth = s.nbParticlesWidth := collideFold_width sph2 L1 s
  have hf1 : s1.isPositionFixed = s.isPositionFixed := collideFold_fixedFlags sph2 L1 s
  have hp1 : ∀ k' : ℕ, k' < 3 → s1.particlePositions (s.getIndex x y + k') =
      s.particlePositions (s.getIndex x y + k') := by
    intro k' hk'
    exact collideFold_pos_untouched sph2 L1 s _ fun p hp k1 hk1 =>
      hdisj p (Or.inl hp) k1 hk1 k' hk'
  have hidx : s1.getIndex x y = s.getIndex x y := by
    unfold getIndex
    rw [hw1]
  rw [hidx]
  have hw2 : (collideParticle sph2 s1 (s.getIndex x y)).nbParticlesWidth =
      s.nbParticlesWidth := by
    rw [collideParticle_width, hw1]
  have huntouched : (L2.foldl (fun t p => collideParticle sph2 t (t.getIndex p.1 p.2))
        (collideParticle sph2 s1 (s.getIndex x y))).particlePositions (s.getIndex x y + k) =
      (collideParticle sph2 s1 (s.getIndex x y)).particlePositions (s.getIndex x y + k) := by
    apply collideFold_pos_untouched
    intro p hp k1 hk1
    rw [hw2]
    exact hdisj p (Or.inr hp) k1 hk1 k hk
  rw [huntouched]
  have hv0 : s1.particlePositions (s.getIndex x y) = s.particlePositions (s.getIndex x y) := by
    have h00 := hp1 0 (by norm_num)
    rw [Nat.add_zero] at h00
    exact h00
  exact collideParticle_pos_own_congr sph2 s1 s (s.getIndex x y)
    (by rw [hf1]) hv0 (hp1 1 (by norm_num)) (hp1 2 (by norm_num)) k hk

end ClothSimulation

namespace ClothSimulation

theorem magnitude_smul (k : ℝ) (v : Vec3) :
    Vec3.magnitude (Vec3.smul k v) = |k| * Vec3.magnitude v := by
  unfold Vec3.magnitude Vec3.smul
  have h : k * v.x * (k * v.x) + k * v.y * (k * v.y) + k * v.z * (k * v.z) =
      k ^ 2 * (v.x * v.x + v.y * v.y + v.z * v.z) := by ring
  rw [h, Real.sqrt_mul (sq_nonneg k), Real.sqrt_sq_eq_abs]

/-- C7: collision push-out.  `computeSphereCollision` first moves the sphere
center to `lerp(center, destination, dt)` and then advances `dt` by `speed`;
afterwards every in-range unfixed particle at positive distance `l` strictly
less than the radius from the moved center ends at distance exactly
`sphereRadius` from the moved center, along a positive multiple of its
original radial direction, while a fixed particle or one at distance
`l ≥ sphereRadius` keeps its position. -/
theorem computeSphereCollision_spec (s : ClothSimulation) (sphere : CollisionSphere)
    (x y : ℕ) (hx : x < s.nbParticlesWidth) (hy : y < s.nbParticlesHeight) :
    (s.computeSphereCollision sphere).1.sphereCenter =
      Vec3.lerp sphere.sphereCenter sphere.sphereDestination sphere.dt ∧
    (s.computeSphereCollision sphere).1.dt = sphere.dt + sphere.speed ∧
    (s.isPositionFixed (s.getIndex x y) = false →
      0 < Vec3.magnitude (Vec3.sub (bufVec s.particlePositions (s.getIndex x y))
          (movedCenter sphere)) →
      Vec3.magnitude (Vec3.sub (bufVec s.particlePositions (s.getIndex x y))
          (movedCenter sphere)) < sphere.sphereRadius →
      (Vec3.distance
          (bufVec (s.computeSphereCollision sphere).2.particlePositions (s.getIndex x y))
          (movedCenter sphere) = sphere.sphereRadius ∧
        ∃ t0 : ℝ, 0 < t0 ∧
          Vec3.sub (bufVec (s.computeSphereCollision sphere).2.particlePositions
              (s.getIndex x y)) (movedCenter sphere) =
            Vec3.smul t0 (Vec3.sub (bufVec s.particlePositions (s.getIndex x y))
              (movedCenter sphere)))) ∧
    ((s.isPositionFixed (s.getIndex x y) = true ∨
        ¬ Vec3.magnitude (Vec3.sub (bufVec s.particlePositions (s.getIndex x y))
            (movedCenter sphere)) < sphere.sphereRadius) →
      bufVec (s.computeSphereCollision sphere).2.particlePositions (s.getIndex x y) =
        bufVec s.particlePositions (s.getIndex x y)) := by
  refine ⟨rfl, rfl, ?_, ?_⟩
  all_goals
    have hown0 := @computeSphereCollision_pos_own s sphere x y hx hy 0 (by norm_num)
    have hown1 := @computeSphereCollision_pos_own s sphere x y hx hy 1 (by norm_num)
    have hown2 := @computeSphereCollision_pos_own s sphere x y hx hy 2 (by norm_num)
    rw [Nat.add_zero] at hown0
  · -- push-out case
    intro hfree hpos hlt
    set idx := s.getIndex x y with hidx
    set cen := movedCenter sphere with hcen
    set vx := s.particlePositions idx - cen.x with hvx
    set vy := s.particlePositions (idx + 1) - cen.y with hvy
    set vz := s.particlePositions (idx + 2) - cen.z with hvz
    set L := Real.sqrt (vx * vx + vy * vy + vz * vz) with hLdef
    have hL : (0 : ℝ) < L := hpos
    have hLr : L < sphere.sphereRadius := hlt
    have hLne : L ≠ 0 := ne_of_gt hL
    have hr : (0 : ℝ) < sphere.sphereRadius := lt_trans hL hLr
    have hS : vx * vx + vy * vy + vz * vz = L * L := by
      rw [hLdef, Real.mul_self_sqrt (add_nonneg (add_nonneg (mul_self_nonneg vx)
        (mul_self_nonneg vy)) (mul_self_nonneg vz))]
    have hstep : ∀ k : ℕ, k < 3 →
        (collideParticle
          { sphere with
            sphereCenter := cen
            dt := sphere.dt + sphere.speed } s idx).particlePositions (idx + k) =
          s.particlePositions (idx + k) +
            (s.particlePositions (idx + k) - (if k = 0 then cen.x else if k = 1 then cen.y
              else cen.z)) / L * (sphere.sphereRadius - L) := by
      intro k hk
      unfold collideParticle
      rw [hfree]
      rw [if_neg Bool.false_ne_true]
      dsimp only
      rw [if_pos hLr]
      dsimp only
      rw [writeVec_apply]
      interval_cases k <;> simp [hvx, hvy, hvz]
    have e0 := hstep 0 (by norm_num)
    have e1 := hstep 1 (by norm_num)
    have e2 := hstep 2 (by norm_num)
    rw [Nat.add_zero] at e0
    norm_num at e0 e1 e2
    constructor
    · show Vec3.distance
        (bufVec (s.computeSphereCollision sphere).2.particlePositions idx) cen =
          sphere.sphereRadius
      unfold Vec3.distance Vec3.magnitude Vec3.sub bufVec
      dsimp only
      rw [hown0, hown1, hown2, e0, e1, e2]
      have ha : s.particlePositions idx + (s.particlePositions idx - cen.x) / L *
          (sphere.sphereRadius - L) - cen.x = vx * sphere.sphereRadius / L := by
        rw [← hvx]
        field_simp
        ring
      have hb : s.particlePositions (idx + 1) + (s.particlePositions (idx + 1) - cen.y) / L *
          (sphere.sphereRadius - L) - cen.y = vy * sphere.sphereRadius / L := by
        rw [← hvy]
        field_simp
        ring
      have hc : s.particlePositions (idx + 2) + (s.particlePositions (idx + 2) - cen.z) / L *
          (sphere.sphereRadius - L) - cen.z = vz * sphere.sphereRadius / L := by
        rw [← hvz]
        field_simp
        ring
      rw [ha, hb, hc]
      have hsum : vx * sphere.sphereRadius / L * (vx * sphere.sphereRadius / L) +
          vy * sphere.sphereRadius / L * (vy * sphere.sphereRadius / L) +
          vz * sphere.sphereRadius / L * (vz * sphere.sphereRadius / L) =
            sphere.sphereRadius ^ 2 := by
        field_simp
        linear_combination sphere.sphereRadius ^ 2 * hS
      rw [hsum]
      exact Real.sqrt_sq hr.le
    · refine ⟨sphere.sphereRadius / L, div_pos hr hL, ?_⟩
      show Vec3.sub (bufVec (s.computeSphereCollision sphere).2.particlePositions idx) cen =
        Vec3.smul (sphere.sphereRadius / L)
          (Vec3.sub (bufVec s.particlePositions idx) cen)
      unfold Vec3.sub Vec3.smul bufVec
      dsimp only
      rw [hown0, hown1, hown2, e0, e1, e2]
      refine Vec3.ext_iff.mpr ⟨?_, ?_, ?_⟩
      · show s.particlePositions idx + (s.particlePositions idx - cen.x) / L *
            (sphere.sphereRadius - L) - cen.x =
          sphere.sphereRadius / L * (s.particlePositions idx - cen.x)
        field_simp
        ring
      · show s.particlePositions (idx + 1) + (s.particlePositions (idx + 1) - cen.y) / L *
            (sphere.sphereRadius - L) - cen.y =
          sphere.sphereRadius / L * (s.particlePositions (idx + 1) - cen.y)
        field_simp
        ring
      · show s.particlePositions (idx + 2) + (s.particlePositions (idx + 2) - cen.z) / L *
            (sphere.sphereRadius - L) - cen.z =
          sphere.sphereRadius / L * (s.particlePositions (idx + 2) - cen.z)
        field_simp
        ring
  · -- unmoved case
    intro hcase
    set idx := s.getIndex x y with hidx
    set cen := movedCenter sphere with hcen
    unfold bufVec
    rw [hown0, hown1, hown2]
    have hid : collideParticle
        { sphere with
          sphereCenter := cen
          dt := sphere.dt + sphere.speed } s idx = s := by
      unfold collideParticle
      rcases hcase with hfix | hfar
      · rw [if_pos hfix]
      · by_cases hfix : s.isPositionFixed idx = true
        · rw [if_pos hfix]
        · rw [if_neg hfix]
          dsimp only
          have hfar2 : ¬ Real.sqrt ((s.particlePositions idx - cen.x) *
              (s.particlePositions idx - cen.x) +
              (s.particlePositions (idx + 1) - cen.y) * (s.particlePositions (idx + 1) - cen.y) +
              (s.particlePositions (idx + 2) - cen.z) *
                (s.particlePositions (idx + 2) - cen.z)) < sphere.sphereRadius := hfar
          rw [if_neg hfar2]
    rw [hid]

end ClothSimulation

/-- A concrete collision sphere of radius 2 resting at `(3,0,-1)` (zero
progress, destination equal to its center), one unit below the particle
`(1,0)` of the example state. -/
def exSphere : CollisionSphere where
  sphereCenter := ⟨3, 0, -1⟩
  sphereDestination := ⟨3, 0, -1⟩
  sphereRadius := 2
  speed := 0.1
  dt := 0

/-- C7 witness: the push-out theorem applied to particle `(1,0)` of the
example state, which sits at distance 1 inside the radius-2 sphere and ends
at distance exactly 2 from the (unmoved) center. -/
theorem computeSphereCollision_spec_witness :
    1 < exampleState.nbParticlesWidth ∧
    0 < exampleState.nbParticlesHeight ∧
    exampleState.isPositionFixed (exampleState.getIndex 1 0) = false ∧
    0 < Vec3.magnitude (Vec3.sub
      (bufVec exampleState.particlePositions (exampleState.getIndex 1 0))
      (movedCenter exSphere)) ∧
    Vec3.magnitude (Vec3.sub
      (bufVec exampleState.particlePositions (exampleState.getIndex 1 0))
      (movedCenter exSphere)) < exSphere.sphereRadius ∧
    Vec3.distance
      (bufVec (exampleState.computeSphereCollision exSphere).2.particlePositions
        (exampleState.getIndex 1 0))
      (movedCenter exSphere) = exSphere.sphereRadius := by
  have hmag : Vec3.magnitude (Vec3.sub
      (bufVec exampleState.particlePositions (exampleState.getIndex 1 0))
      (movedCenter exSphere)) = 1 := by
    have hp0 : exampleState.particlePositions 3 = 3 := rfl
    have hp1 : exampleState.particlePositions 4 = 0 := rfl
    have hp2 : exampleState.particlePositions 5 = 0 := rfl
    show Vec3.magnitude (Vec3.sub (bufVec exampleState.particlePositions 3)
      (movedCenter exSphere)) = 1
    unfold bufVec
    rw [show (3 : ℕ) + 1 = 4 from rfl, show (3 : ℕ) + 2 = 5 from rfl, hp0, hp1, hp2]
    unfold movedCenter Vec3.lerp Vec3.add Vec3.smul Vec3.sub Vec3.magnitude exSphere
    norm_num
  have hx : 1 < exampleState.nbParticlesWidth := by norm_num [exampleState]
  have hy : 0 < exampleState.nbParticlesHeight := by norm_num [exampleState]
  have hfree : exampleState.isPositionFixed (exampleState.getIndex 1 0) = false := rfl
  have hpos : 0 < Vec3.magnitude (Vec3.sub
      (bufVec exampleState.particlePositions (exampleState.getIndex 1 0))
      (movedCenter exSphere)) := by rw [hmag]; norm_num
  have hlt : Vec3.magnitude (Vec3.sub
      (bufVec exampleState.particlePositions (exampleState.getIndex 1 0))
      (movedCenter exSphere)) < exSphere.sphereRadius := by
    rw [hmag]
    show (1 : ℝ) < 2
    norm_num
  exact ⟨hx, hy, hfree, hpos, hlt,
    ((ClothSimulation.computeSphereCollision_spec exampleState exSphere 1 0 hx hy).2.2.1
      hfree hpos hlt).1⟩

namespace ClothSimulation

theorem addForceToAllParticles_shape (s : ClothSimulation) (f : Vec3) :
    ∃ a, s.addForceToAllParticles f = { s with particleAccelerations := a } := by
  unfold addForceToAllParticles
  generalize s.particleSlotBases = L
  induction L generalizing s with
  | nil => exact ⟨s.particleAccelerations, rfl⟩
  | cons i L ih =>
    rw [List.foldl_cons]
    by_cases hfx : s.isPositionFixed i = true
    · rw [if_pos hfx]
      exact ih s
    · rw [if_neg hfx]
      obtain ⟨a2, ha2⟩ := ih { s with particleAccelerations :=
        (writeVec s.particleAccelerations i
          (s.particleAccelerations i + f.x / s.particleMass)
          (s.particleAccelerations (i + 1) + f.y / s.particleMass)
          (s.particleAccelerations (i + 2) + f.z / s.particleMass)) }
      exact ⟨a2, ha2⟩

theorem addGravity_width (ned : Vec3 → Vec3) (s : ClothSimulation) :
    (addGravity ned s).nbParticlesWidth = s.nbParticlesWidth := by
  unfold addGravity
  split
  · rfl
  · obtain ⟨a, ha⟩ := addForceToAllParticles_shape s
      (Vec3.smul (-s.timeStepPerFrame) (Vec3.normalize (ned s.config.gravity)))
    rw [ha]

theorem addGravity_height (ned : Vec3 → Vec3) (s : ClothSimulation) :
    (addGravity ned s).nbParticlesHeight = s.nbParticlesHeight := by
  unfold addGravity
  split
  · rfl
  · obtain ⟨a, ha⟩ := addForceToAllParticles_shape s
      (Vec3.smul (-s.timeStepPerFrame) (Vec3.normalize (ned s.config.gravity)))
    rw [ha]

theorem addGravity_fixedFlags (ned : Vec3 → Vec3) (s : ClothSimulation) :
    (addGravity ned s).isPositionFixed = s.isPositionFixed := by
  unfold addGravity
  split
  · rfl
  · obtain ⟨a, ha⟩ := addForceToAllParticles_shape s
      (Vec3.smul (-s.timeStepPerFrame) (Vec3.normalize (ned s.config.gravity)))
    rw [ha]

theorem addWindForcesForTriangle_shape (s : ClothSimulation) (i1 i2 i3 : ℕ) (d : Vec3) :
    ∃ a, s.addWindForcesForTriangle i1 i2 i3 d = { s with particleAccelerations := a } := by
  unfold addWindForcesForTriangle addForce
  exact ⟨_, rfl⟩

theorem windCellBody_shape (t : ClothSimulation) (p : ℕ × ℕ) (d : Vec3) :
    ∃ a, (t.addWindForcesForTriangle (t.getIndex p.1 p.2) (t.getIndex (p.1 + 1) p.2) (t.getIndex p.1 (p.2 + 1)) d).addWindForcesForTriangle
        ((t.addWindForcesForTriangle (t.getIndex p.1 p.2) (t.getIndex (p.1 + 1) p.2) (t.getIndex p.1 (p.2 + 1)) d).getIndex (p.1 + 1) p.2)
        ((t.addWindForcesForTriangle (t.getIndex p.1 p.2) (t.getIndex (p.1 + 1) p.2) (t.getIndex p.1 (p.2 + 1)) d).getIndex p.1 (p.2 + 1))
        ((t.addWindForcesForTriangle (t.getIndex p.1 p.2) (t.getIndex (p.1 + 1) p.2) (t.getIndex p.1 (p.2 + 1)) d).getIndex (p.1 + 1) (p.2 + 1)) d =
      { t with particleAccelerations := a } := by
  obtain ⟨a1, h1⟩ := addWindForcesForTriangle_shape t (t.getIndex p.1 p.2)
    (t.getIndex (p.1 + 1) p.2) (t.getIndex p.1 (p.2 + 1)) d
  rw [h1]
  obtain ⟨a2, h2⟩ := addWindForcesForTriangle_shape { t with particleAccelerations := a1 }
    (ClothSimulation.getIndex { t with particleAccelerations := a1 } (p.1 + 1) p.2)
    (ClothSimulation.getIndex { t with particleAccelerations := a1 } p.1 (p.2 + 1))
    (ClothSimulation.getIndex { t with particleAccelerations := a1 } (p.1 + 1) (p.2 + 1)) d
  rw [h2]
  exact ⟨a2, rfl⟩

theorem windForce_width (s : ClothSimulation) :
    (windForce s).nbParticlesWidth = s.nbParticlesWidth := by
  unfold windForce
  split
  · rfl
  · refine foldl_proj_eq nbParticlesWidth _ _ _ fun t p => ?_
    dsimp only
    obtain ⟨a, ha⟩ := windCellBody_shape t p
      ((addWindNoise s.windNoiseStep s.config.wind).1.getD s.config.wind)
    rw [ha]

theorem windForce_height (s : ClothSimulation) :
    (windForce s).nbParticlesHeight = s.nbParticlesHeight := by
  unfold windForce
  split
  · rfl
  · refine foldl_proj_eq nbParticlesHeight _ _ _ fun t p => ?_
    dsimp only
    obtain ⟨a, ha⟩ := windCellBody_shape t p
      ((addWindNoise s.windNoiseStep s.config.wind).1.getD s.config.wind)
    rw [ha]

theorem windForce_fixedFlags (s : ClothSimulation) :
    (windForce s).isPositionFixed = s.isPositionFixed := by
  unfold windForce
  split
  · rfl
  · refine foldl_proj_eq isPositionFixed _ _ _ fun t p => ?_
    dsimp only
    obtain ⟨a, ha⟩ := windCellBody_shape t p
      ((addWindNoise s.windNoiseStep s.config.wind).1.getD s.config.wind)
    rw [ha]

theorem runCollisions_acc (s : ClothSimulation) :
    (runCollisions s).particleAccelerations = s.particleAccelerations := by
  unfold runCollisions
  suffices h : ∀ (L : List CollisionSphere) (acc : List CollisionSphere) (t : ClothSimulation),
      ((L.foldl (fun (a : List CollisionSphere × ClothSimulation) sphere =>
          (a.1 ++ [(a.2.computeSphereCollision sphere).1],
            (a.2.computeSphereCollision sphere).2)) (acc, t)).2).particleAccelerations =
        t.particleAccelerations by
    exact h s.collisionSpheres [] s
  intro L
  induction L with
  | nil => intro acc t; rfl
  | cons a L ih =>
    intro acc t
    rw [List.foldl_cons]
    obtain ⟨p, hp⟩ := computeSphereCollision_shape t a
    have step : ((t.computeSphereCollision a).2).particleAccelerations =
        t.particleAccelerations := by rw [hp]
    rw [ih _ _, step]

end ClothSimulation

namespace ClothSimulation

theorem integrationFold_acc_zero (t : ClothSimulation) (x y : ℕ)
    (hx : x < t.nbParticlesWidth) (hy : y < t.nbParticlesHeight)
    (hfree : t.isPositionFixed (gridIndex t.nbParticlesWidth x y) = false)
    {k : ℕ} (hk : k < 3) :
    ((particleCoordsYOuter t.nbParticlesWidth t.nbParticlesHeight).foldl
        (fun u p => u.particleTimeStep (u.getIndex p.1 p.2)) t).particleAccelerations
      (gridIndex t.nbParticlesWidth x y + k) = 0 := by
  obtain ⟨L1, L2, hL⟩ := List.append_of_mem (mem_particleCoordsYOuter.mpr ⟨hx, hy⟩)
  have hnd := nodup_particleCoordsYOuter t.nbParticlesWidth t.nbParticlesHeight
  rw [hL] at hnd
  have hnd' := List.nodup_append.mp hnd
  have hnotm1 : (x, y) ∉ L1 := fun hm => hnd'.2.2 hm (List.mem_cons_self _ _)
  have hnotm2 : (x, y) ∉ L2 := (List.nodup_cons.mp hnd'.2.1).1
  have hmemL : ∀ p, p ∈ L1 ∨ p ∈ L2 → p.1 < t.nbParticlesWidth ∧ p.2 < t.nbParticlesHeight := by
    intro p hp
    have hpm : p ∈ particleCoordsYOuter t.nbParticlesWidth t.nbParticlesHeight := by
      rw [hL]
      rcases hp with hp | hp
      · exact List.mem_append.mpr (Or.inl hp)
      · exact List.mem_append.mpr (Or.inr (List.mem_cons_of_mem _ hp))
    rcases p with ⟨a, b⟩
    exact mem_particleCoordsYOuter.mp hpm
  have hdisj : ∀ p, (p ∈ L1 ∨ p ∈ L2) → ∀ k1 < 3, ∀ k2 < 3,
      gridIndex t.nbParticlesWidth p.1 p.2 + k1 ≠ gridIndex t.nbParticlesWidth x y + k2 := by
    intro p hp k1 hk1 k2 hk2
    have hpin := hmemL p hp
    have hpne : ¬(p.1 = x ∧ p.2 = y) := by
      rintro ⟨he1, he2⟩
      have hpe : p = (x, y) := by
        rcases p with ⟨a, b⟩
        simp_all
      rcases hp with hp | hp
      · exact hnotm1 (hpe ▸ hp)
      · exact hnotm2 (hpe ▸ hp)
    exact gridIndex_slot_disjoint hpin.1 hx hpne hk1 hk2
  rw [hL, List.foldl_append, List.foldl_cons]
  set s1 := L1.foldl (fun u p => u.particleTimeStep (u.getIndex p.1 p.2)) t with hs1def
  have hw1 : s1.nbParticlesWidth = t.nbParticlesWidth := integrationFold_width L1 t
  have hf1 : s1.isPositionFixed = t.isPositionFixed := integrationFold_fixedFlags L1 t
  have hidx : s1.getIndex x y = gridIndex t.nbParticlesWidth x y := by
    unfold getIndex
    rw [hw1]
  have hw2 : (s1.particleTimeStep (s1.getIndex x y)).nbParticlesWidth = t.nbParticlesWidth := by
    rw [particleTimeStep_width, hw1]
  have huntouched : ((L2.foldl (fun u p => u.particleTimeStep (u.getIndex p.1 p.2))
        (s1.particleTimeStep (s1.getIndex x y)))).particleAccelerations
      (gridIndex t.nbParticlesWidth x y + k) =
        (s1.particleTimeStep (s1.getIndex x y)).particleAccelerations
          (gridIndex t.nbParticlesWidth x y + k) := by
    apply integrationFold_acc_untouched
    intro p hp k1 hk1
    rw [hw2]
    exact hdisj p (Or.inr hp) k1 hk1 k hk
  rw [huntouched, hidx]
  exact particleTimeStep_acc_own s1 _ (by rw [hf1]; exact hfree) hk

theorem simulationStep_acc_zero (t : ClothSimulation) (x y : ℕ)
    (hx : x < t.nbParticlesWidth) (hy : y < t.nbParticlesHeight)
    (hfree : t.isPositionFixed (gridIndex t.nbParticlesWidth x y) = false)
    {k : ℕ} (hk : k < 3) :
    (simulationStep t).particleAccelerations (gridIndex t.nbParticlesWidth x y + k) = 0 := by
  unfold simulationStep
  obtain ⟨p, hp⟩ := constraintPhase_shape t.nbSimulationIterations t
  rw [hp]
  exact integrationFold_acc_zero { t with particlePositions := p } x y hx hy hfree hk

/-- C9 amended: at the end of every simulation tick, every in-range UNFIXED
particle's accumulated acceleration is zero (the gravity and wind
contributions of the tick are consumed by the integrator and reset); fixed
particles are excluded — their accelerations are not reset,
see the counterexample. -/
theorem updateSimulation_unfixed_acc_zero (ned : Vec3 → Vec3) (s : ClothSimulation)
    (x y : ℕ) (hx : x < s.nbParticlesWidth) (hy : y < s.nbParticlesHeight)
    (hfree : s.isPositionFixed (gridIndex s.nbParticlesWidth x y) = false)
    {k : ℕ} (hk : k < 3) :
    (updateSimulation ned s).particleAccelerations (gridIndex s.nbParticlesWidth x y + k) = 0 := by
  unfold updateSimulation
  rw [runCollisions_acc]
  have hw : (windForce (addGravity ned s)).nbParticlesWidth = s.nbParticlesWidth := by
    rw [windForce_width, addGravity_width]
  have hh : (windForce (addGravity ned s)).nbParticlesHeight = s.nbParticlesHeight := by
    rw [windForce_height, addGravity_height]
  have hf : (windForce (addGravity ned s)).isPositionFixed = s.isPositionFixed := by
    rw [windForce_fixedFlags, addGravity_fixedFlags]
  have hz := simulationStep_acc_zero (windForce (addGravity ned s)) x y
    (by rw [hw]; exact hx) (by rw [hh]; exact hy)
    (by rw [hf, hw]; exact hfree) hk
  rw [hw] at hz
  exact hz

end ClothSimulation

namespace ClothSimulation

theorem particleTimeStep_of_fixed (s : ClothSimulation) (idx : ℕ)
    (hfix : s.isPositionFixed idx = true) : s.particleTimeStep idx = s := by
  unfold particleTimeStep
  rw [if_pos hfix]

theorem integrationFold_acc_of_fixed (t : ClothSimulation) (x y : ℕ)
    (hx : x < t.nbParticlesWidth) (hy : y < t.nbParticlesHeight)
    (hfix : t.isPositionFixed (gridIndex t.nbParticlesWidth x y) = true)
    {k : ℕ} (hk : k < 3) :
    ((particleCoordsYOuter t.nbParticlesWidth t.nbParticlesHeight).foldl
        (fun u p => u.particleTimeStep (u.getIndex p.1 p.2)) t).particleAccelerations
      (gridIndex t.nbParticlesWidth x y + k) =
      t.particleAccelerations (gridIndex t.nbParticlesWidth x y + k) := by
  obtain ⟨L1, L2, hL⟩ := List.append_of_mem (mem_particleCoordsYOuter.mpr ⟨hx, hy⟩)
  have hnd := nodup_particleCoordsYOuter t.nbParticlesWidth t.nbParticlesHeight
  rw [hL] at hnd
  have hnd' := List.nodup_append.mp hnd
  have hnotm1 : (x, y) ∉ L1 := fun hm => hnd'.2.2 hm (List.mem_cons_self _ _)
  have hnotm2 : (x, y) ∉ L2 := (List.nodup_cons.mp hnd'.2.1).1
  have hmemL : ∀ p, p ∈ L1 ∨ p ∈ L2 → p.1 < t.nbParticlesWidth ∧ p.2 < t.nbParticlesHeight := by
    intro p hp
    have hpm : p ∈ particleCoordsYOuter t.nbParticlesWidth t.nbParticlesHeight := by
      rw [hL]
      rcases hp with hp | hp
      · exact List.mem_append.mpr (Or.inl hp)
      · exact List.mem_append.mpr (Or.inr (List.mem_cons_of_mem _ hp))
    rcases p with ⟨a, b⟩
    exact mem_particleCoordsYOuter.mp hpm
  have hdisj : ∀ p, (p ∈ L1 ∨ p ∈ L2) → ∀ k1 < 3, ∀ k2 < 3,
      gridIndex t.nbParticlesWidth p.1 p.2 + k1 ≠ gridIndex t.nbParticlesWidth x y + k2 := by
    intro p hp k1 hk1 k2 hk2
    have hpin := hmemL p hp
    have hpne : ¬(p.1 = x ∧ p.2 = y) := by
      rintro ⟨he1, he2⟩
      have hpe : p = (x, y) := by
        rcases p with ⟨a, b⟩
        simp_all
      rcases hp with hp | hp
      · exact hnotm1 (hpe ▸ hp)
      · exact hnotm2 (hpe ▸ hp)
    exact gridIndex_slot_disjoint hpin.1 hx hpne hk1 hk2
  rw [hL, List.foldl_append, List.foldl_cons]
  set s1 := L1.foldl (fun u p => u.particleTimeStep (u.getIndex p.1 p.2)) t with hs1def
  have hw1 : s1.nbParticlesWidth = t.nbParticlesWidth := integrationFold_width L1 t
  have hf1 : s1.isPositionFixed = t.isPositionFixed := integrationFold_fixedFlags L1 t
  have hidx : s1.getIndex x y = gridIndex t.nbParticlesWidth x y := by
    unfold getIndex
    rw [hw1]
  have hstep : s1.particleTimeStep (s1.getIndex x y) = s1 := by
    apply particleTimeStep_of_fixed
    rw [hidx, hf1]
    exact hfix
  rw [hstep]
  have huntouched : (L2.foldl (fun u p => u.particleTimeStep (u.getIndex p.1 p.2))
        s1).particleAccelerations (gridIndex t.nbParticlesWidth x y + k) =
      s1.particleAccelerations (gridIndex t.nbParticlesWidth x y + k) := by
    apply integrationFold_acc_untouched
    intro p hp k1 hk1
    rw [hw1]
    exact hdisj p (Or.inr hp) k1 hk1 k hk
  rw [huntouched]
  exact integrationFold_acc_untouched L1 t _ fun p hp k1 hk1 =>
    hdisj p (Or.inl hp) k1 hk1 k hk

theorem simulationStep_acc_of_fixed (t : ClothSimulation) (x y : ℕ)
    (hx : x < t.nbParticlesWidth) (hy : y < t.nbParticlesHeight)
    (hfix : t.isPositionFixed (gridIndex t.nbParticlesWidth x y) = true)
    {k : ℕ} (hk : k < 3) :
    (simulationStep t).particleAccelerations (gridIndex t.nbParticlesWidth x y + k) =
      t.particleAccelerations (gridIndex t.nbParticlesWidth x y + k) := by
  unfold simulationStep
  obtain ⟨p, hp⟩ := constraintPhase_shape t.nbSimulationIterations t
  rw [hp]
  exact integrationFold_acc_of_fixed { t with particlePositions := p } x y hx hy hfix hk

theorem addForce_acc_outside (s : ClothSimulation) (idx : ℕ) (f : Vec3) (j : ℕ)
    (h1 : j ≠ idx) (h2 : j ≠ idx + 1) (h3 : j ≠ idx + 2) :
    (s.addForce idx f).particleAccelerations j = s.particleAccelerations j := by
  unfold addForce
  dsimp only
  exact writeVec_apply_of_disjoint _ _ _ _ _ _ h1 h2 h3

theorem addForce_acc_at2 (s : ClothSimulation) (idx : ℕ) (f : Vec3) (j : ℕ)
    (hj : j = idx + 2) :
    (s.addForce idx f).particleAccelerations j =
      s.particleAccelerations (idx + 2) + f.z / s.particleMass := by
  subst hj
  unfold addForce
  dsimp only
  rw [writeVec_apply, if_pos rfl]

end ClothSimulation

/-- The example state right after `addWindNoise` has stored the new counter,
as produced inside `windForce`. -/
def exampleStateWind : ClothSimulation :=
  { exampleState with
    windNoiseStep := (addWindNoise exampleState.windNoiseStep exampleState.config.wind).2 }

/-- The wind vector actually used by `windForce` on the example state: the
noised wind. -/
def exampleWindVec : Vec3 :=
  (addWindNoise exampleState.windNoiseStep exampleState.config.wind).1.getD
    exampleState.config.wind

theorem exampleWindVec_eq : exampleWindVec = ⟨(0 : ℝ) + 0.001, (0 : ℝ) + 0.001, 1⟩ := rfl

theorem calcTriangleNormal_example :
    ClothSimulation.calcTriangleNormal exampleStateWind 0 3 6 = ⟨0, 0, 1⟩ := by
  unfold ClothSimulation.calcTriangleNormal
  have h0 : exampleStateWind.particlePositions 0 = 0 := rfl
  have h1 : exampleStateWind.particlePositions (0 + 1) = 0 := rfl
  have h2 : exampleStateWind.particlePositions (0 + 2) = 0 := rfl
  have h3 : exampleStateWind.particlePositions 3 = 3 := rfl
  have h4 : exampleStateWind.particlePositions (3 + 1) = 0 := rfl
  have h5 : exampleStateWind.particlePositions (3 + 2) = 0 := rfl
  have h6 : exampleStateWind.particlePositions 6 = 0 := rfl
  have h7 : exampleStateWind.particlePositions (6 + 1) = 4 := rfl
  have h8 : exampleStateWind.particlePositions (6 + 2) = 0 := rfl
  rw [h0, h1, h2, h3, h4, h5, h6, h7, h8]
  norm_num
  rw [real_sqrt_eval 144 12 (by norm_num) (by norm_num)]
  norm_num

theorem windForce_exampleState_acc2 :
    (ClothSimulation.windForce exampleState).particleAccelerations 2 = 1 := by
  have hne : ¬ exampleState.config.wind = Vec3.zero := by
    intro h
    have h1 : (1 : ℝ) = 0 := congrArg Vec3.z h
    norm_num at h1
  unfold ClothSimulation.windForce
  rw [if_neg hne]
  show ((exampleStateWind.addWindForcesForTriangle 0 3 6
      exampleWindVec).addWindForcesForTriangle 3 6 9
      exampleWindVec).particleAccelerations 2 = 1
  unfold ClothSimulation.addWindForcesForTriangle
  dsimp only
  rw [ClothSimulation.addForce_acc_outside _ 9 _ 2 (by norm_num) (by norm_num) (by norm_num)]
  rw [ClothSimulation.addForce_acc_outside _ 6 _ 2 (by norm_num) (by norm_num) (by norm_num)]
  rw [ClothSimulation.addForce_acc_outside _ 3 _ 2 (by norm_num) (by norm_num) (by norm_num)]
  rw [ClothSimulation.addForce_acc_outside _ 6 _ 2 (by norm_num) (by norm_num) (by norm_num)]
  rw [ClothSimulation.addForce_acc_outside _ 3 _ 2 (by norm_num) (by norm_num) (by norm_num)]
  rw [ClothSimulation.addForce_acc_at2 _ 0 _ 2 (by norm_num)]
  rw [calcTriangleNormal_example, exampleWindVec_eq]
  have hacc : exampleStateWind.particleAccelerations (0 + 2) = 0 := rfl
  have hmass : exampleStateWind.particleMass = 1 := rfl
  rw [hacc, hmass]
  unfold Vec3.smul Vec3.dot
  norm_num

/-- C9 counterexample: accelerations are NOT all reset at the end of a tick.
In the concrete 2×2 example state, particle `(0,0)` is fixed and the wind is
`(0,0,1)`; after one full `updateSimulation` tick the fixed particle's
z-acceleration slot (flat slot 2) holds the wind contribution 1, not 0 —
`particleTimeStep` returns early for fixed particles without resetting their
accumulated acceleration, while `addWindForcesForTriangle` adds force to
fixed particles too. -/
theorem updateSimulation_fixed_acc_not_reset :
    (ClothSimulation.updateSimulation (fun v => v) exampleState).particleAccelerations 2 = 1 ∧
    exampleState.isPositionFixed (gridIndex exampleState.nbParticlesWidth 0 0) = true ∧
    (1 : ℝ) ≠ 0 := by
  refine ⟨?_, rfl, by norm_num⟩
  unfold ClothSimulation.updateSimulation
  rw [ClothSimulation.runCollisions_acc]
  have hA : ClothSimulation.addGravity (fun v => v) exampleState = exampleState := by
    unfold ClothSimulation.addGravity
    rw [if_pos (show exampleState.config.gravity = Vec3.zero from rfl)]
  rw [hA]
  set sW := ClothSimulation.windForce exampleState with hsW
  have hWw : sW.nbParticlesWidth = 2 := by
    rw [hsW, ClothSimulation.windForce_width]
    rfl
  have hWh : sW.nbParticlesHeight = 2 := by
    rw [hsW, ClothSimulation.windForce_height]
    rfl
  have hWfix : sW.isPositionFixed (gridIndex sW.nbParticlesWidth 0 0) = true := by
    have hz : gridIndex sW.nbParticlesWidth 0 0 = 0 := by simp [gridIndex]
    rw [hz, hsW, ClothSimulation.windForce_fixedFlags]
    rfl
  have hstep := @ClothSimulation.simulationStep_acc_of_fixed sW 0 0
    (by rw [hWw]; norm_num) (by rw [hWh]; norm_num) hWfix 2 (by norm_num)
  have hslot : gridIndex sW.nbParticlesWidth 0 0 + 2 = 2 := by simp [gridIndex]
  rw [hslot] at hstep
  rw [hstep, hsW]
  exact windForce_exampleState_acc2

/-- C9 witness (amended claim): the reset theorem applied to the unfixed
particle `(1,0)` of the example state after one tick. -/
theorem updateSimulation_unfixed_acc_zero_witness :
    1 < exampleState.nbParticlesWidth ∧ 0 < exampleState.nbParticlesHeight ∧
    exampleState.isPositionFixed (gridIndex exampleState.nbParticlesWidth 1 0) = false ∧
    (ClothSimulation.updateSimulation (fun v => v) exampleState).particleAccelerations
      (gridIndex exampleState.nbParticlesWidth 1 0 + 0) = 0 := by
  refine ⟨by norm_num [exampleState], by norm_num [exampleState], rfl, ?_⟩
  exact @ClothSimulation.updateSimulation_unfixed_acc_zero (fun v => v) exampleState 1 0
    (by norm_num [exampleState]) (by norm_num [exampleState]) rfl 0 (by norm_num)

/-- The approximate grid x coordinate recovered by `getIndexFromPosition`:
`Math.ceil(|projection of p - p1 onto the p1→p2 axis| / spacing) - 1`. -/
def queryX (c : ClothConfiguration) (p : Vec3) : ℤ :=
  ⌈Vec3.magnitude (projectPoint Vec3.zero (Vec3.sub c.p2 c.p1) (Vec3.sub p c.p1)) /
    c.widthAxisParticleDistance⌉ - 1

/-- The approximate grid y coordinate recovered by `getIndexFromPosition`. -/
def queryY (c : ClothConfiguration) (p : Vec3) : ℤ :=
  ⌈Vec3.magnitude (projectPoint Vec3.zero (Vec3.sub c.p4 c.p1) (Vec3.sub p c.p1)) /
    c.heightAxisParticleDistance⌉ - 1

/-- C8 amended: out-of-range grid coordinates are NOT rejected.  The query
returns the `-1` sentinel only when the recovered `X` strictly exceeds
`nbParticlesWidth` or `Y` strictly exceeds `nbParticlesHeight` (both one past
the largest valid index); any recovered pair with `-1 ≤ X ≤ width`,
`-1 ≤ Y ≤ height` is converted to a flat buffer index without rejection.
The out-of-range column `x = width` aliases the flat index of the valid
particle `(0, y+1)`; and the fixed-particle command performs no bounds check
at all — it writes the fixed flag at `getIndex(particleX, particleY)`
unconditionally. -/
theorem gridQuery_and_fixedParticle_unchecked (c : ClothConfiguration) (w h : ℕ) (p : Vec3)
    (s : ClothSimulation) (px py : ℕ) (ff : Bool) :
    (queryX c p > (w : ℤ) ∨ queryY c p > (h : ℤ) → getIndexFromPosition c w h p = -1) ∧
    (queryX c p ≤ (w : ℤ) → queryY c p ≤ (h : ℤ) →
      getIndexFromPosition c w h p = gridIndexZ w (queryX c p) (queryY c p)) ∧
    gridIndex w w py = gridIndex w 0 (py + 1) ∧
    (s.updateClothForceAndCollision
        { gravity := none, wind := none, collisionSpheres := none,
          fixedParticles := some [⟨px, py, ff, none⟩] }).isPositionFixed
      (s.getIndex px py) = ff := by
  refine ⟨?_, ?_, ?_, ?_⟩
  · intro hcase
    unfold getIndexFromPosition
    show (if queryX c p > (w : ℤ) then -1
      else if queryY c p > (h : ℤ) then -1
      else gridIndexZ w (queryX c p) (queryY c p)) = -1
    rcases hcase with hcase | hcase
    · rw [if_pos hcase]
    · by_cases hX : queryX c p > (w : ℤ)
      · rw [if_pos hX]
      · rw [if_neg hX, if_pos hcase]
  · intro hX hY
    unfold getIndexFromPosition
    show (if queryX c p > (w : ℤ) then -1
      else if queryY c p > (h : ℤ) then -1
      else gridIndexZ w (queryX c p) (queryY c p)) =
        gridIndexZ w (queryX c p) (queryY c p)
    rw [if_neg (not_lt.mpr hX), if_neg (not_lt.mpr hY)]
  · unfold gridIndex
    ring
  · unfold ClothSimulation.updateClothForceAndCollision
    dsimp only
    unfold ClothSimulation.setFixed
    dsimp only
    exact Function.update_same _ _ _

theorem exampleConfig_eq :
    exampleState.config =
      ⟨⟨0, 0, 0⟩, ⟨3, 0, 0⟩, ⟨3, 4, 0⟩, ⟨0, 4, 0⟩, 3, 4, Vec3.zero, ⟨0, 0, 1⟩⟩ := rfl

theorem queryX_example_nine : queryX exampleState.config ⟨9, 0, 0⟩ = 2 := by
  rw [exampleConfig_eq]
  unfold queryX projectPoint Vec3.sub Vec3.dot Vec3.add Vec3.smul Vec3.zero Vec3.magnitude
  norm_num
  rw [real_sqrt_eval 81 9 (by norm_num) (by norm_num)]
  norm_num

theorem queryY_example_nine : queryY exampleState.config ⟨9, 0, 0⟩ = -1 := by
  rw [exampleConfig_eq]
  unfold queryY projectPoint Vec3.sub Vec3.dot Vec3.add Vec3.smul Vec3.zero Vec3.magnitude
  norm_num

/-- C8 counterexample: an out-of-range grid coordinate is neither rejected
nor reported.  For the 2×2 example grid the world point `(9,0,0)` is beyond
the far edge: the query recovers `X = 2 = width` (valid indices are 0..1),
yet `getIndexFromPosition` returns the flat buffer index 0 — the sentinel
`-1` is not produced and the result addresses the valid particle `(0,0)`.
Likewise the fixed-particle command addressed at the out-of-range grid
coordinate `(2,0)` silently sets the fixed flag at flat index 6, which is the
slot of the valid particle `(0,1)` — a state mutation, not a sentinel or
error. -/
theorem gridQuery_out_of_range_not_rejected :
    getIndexFromPosition exampleState.config 2 2 ⟨9, 0, 0⟩ = 0 ∧
    queryX exampleState.config ⟨9, 0, 0⟩ = 2 ∧
    (0 : ℤ) ≠ -1 ∧
    (ClothSimulation.updateClothForceAndCollision exampleState
      { gravity := none, wind := none, collisionSpheres := none,
        fixedParticles := some [⟨2, 0, true, none⟩] }).isPositionFixed 6 = true ∧
    exampleState.isPositionFixed 6 = false ∧
    exampleState.getIndex 2 0 = 6 ∧ exampleState.getIndex 0 1 = 6 := by
  refine ⟨?_, queryX_example_nine, by norm_num, rfl, rfl, rfl, rfl⟩
  have h2 := (gridQuery_and_fixedParticle_unchecked exampleState.config 2 2 ⟨9, 0, 0⟩
    exampleState 2 0 true).2.1
  rw [queryX_example_nine, queryY_example_nine] at h2
  rw [h2 (by norm_num) (by norm_num)]
  unfold gridIndexZ
  norm_num

theorem queryX_example_thirty : queryX exampleState.config ⟨30, 0, 0⟩ = 9 := by
  rw [exampleConfig_eq]
  unfold queryX projectPoint Vec3.sub Vec3.dot Vec3.add Vec3.smul Vec3.zero Vec3.magnitude
  norm_num
  rw [real_sqrt_eval 900 30 (by norm_num) (by norm_num)]
  norm_num

/-- C8 witness (amended claim): for the far-away point `(30,0,0)` the
recovered `X = 9` exceeds the width, so the query returns `-1`; and the
unchecked fixed-particle write is exercised at grid `(2,0)`. -/
theorem gridQuery_and_fixedParticle_unchecked_witness :
    queryX exampleState.config ⟨30, 0, 0⟩ > (2 : ℤ) ∧
    getIndexFromPosition exampleState.config 2 2 ⟨30, 0, 0⟩ = -1 ∧
    (ClothSimulation.updateClothForceAndCollision exampleState
      { gravity := none, wind := none, collisionSpheres := none,
        fixedParticles := some [⟨2, 0, true, none⟩] }).isPositionFixed
      (exampleState.getIndex 2 0) = true := by
  have hgt : queryX exampleState.config ⟨30, 0, 0⟩ > (2 : ℤ) := by
    rw [queryX_example_thirty]
    norm_num
  refine ⟨hgt, ?_, ?_⟩
  · exact (gridQuery_and_fixedParticle_unchecked exampleState.config 2 2 ⟨30, 0, 0⟩
      exampleState 2 0 true).1 (Or.inl hgt)
  · exact (gridQuery_and_fixedParticle_unchecked exampleState.config 2 2 ⟨30, 0, 0⟩
      exampleState 2 0 true).2.2.2

/-- C10: the simulation is deterministic.  A whole worker run — any sequence
of asynchronous force/collision commands and periodic ticks (each tick being
`updateSimulation` followed by `refreshCloth`, which recomputes normals and
the encoded high/low position buffers) — is a pure function of the initial
state and the input sequence: equal initial states and equal input sequences
produce equal final states, hence bit-identical position, normal and encoded
buffers; and the wind "noise" is the fixed constant `+0.001` on x and y, a
deterministic function of the counter, not a random perturbation. -/
theorem runSimulation_deterministic (ned : Vec3 → Vec3) (events1 events2 : List SimEvent)
    (s1 s2 : ClothSimulation) (hs : s1 = s2) (he : events1 = events2) :
    (runSimulation ned events1 s1 = runSimulation ned events2 s2 ∧
      (runSimulation ned events1 s1).particlePositions =
        (runSimulation ned events2 s2).particlePositions ∧
      (runSimulation ned events1 s1).particleNormals =
        (runSimulation ned events2 s2).particleNormals ∧
      (runSimulation ned events1 s1).particlePositionsHigh =
        (runSimulation ned events2 s2).particlePositionsHigh ∧
      (runSimulation ned events1 s1).particlePositionsLow =
        (runSimulation ned events2 s2).particlePositionsLow) ∧
    (∀ (w : Vec3) (c : ℕ), addWindNoise c w =
      if c % 1000 = 0 then (some ⟨w.x + 0.001, w.y + 0.001, w.z⟩, 0) else (none, c + 1)) := by
  subst hs
  subst he
  refine ⟨⟨rfl, rfl, rfl, rfl, rfl⟩, fun w c => ?_⟩
  by_cases h : c % 1000 = 0 <;> simp [addWindNoise, h]

/-- C10 witness: the determinism theorem applied to one tick of the concrete
example state. -/
theorem runSimulation_deterministic_witness :
    exampleState = exampleState ∧
    runSimulation (fun v => v) [SimEvent.tick] exampleState =
      runSimulation (fun v => v) [SimEvent.tick] exampleState :=
  ⟨rfl, ((runSimulation_deterministic (fun v => v) [SimEvent.tick] [SimEvent.tick]
    exampleState exampleState rfl rfl).1).1⟩
